import Mathlib

/-!
Verification development for the abortable-promise library
(src/abortable-promise.ts, src/abort-signal-plus.ts,
src/abort-controller-plus.ts).

The embedding works over three small state models, each translated
directly from the source:

* a promise-chain world `PWorld` for `AbortablePromise` (parent links,
  the `_isSettled` flag, the underlying promise state, the bound signal
  and the abort listeners registered by `listen`);
* a signal-composition world `CWorld` for `AbortSignalPlus._listen`,
  `one` and `any` (reason translation, already-aborted short-circuit,
  listener registration and cascaded abort dispatch);
* a timer world `TSigW` for `AbortSignalPlus.timeout` / `hasTimeout`
  (the host timer queue, the `_timer` handle, and the once-registered
  abort listeners that clear it).

JS `undefined` is modelled as `Option.none`; the identity of a freshly
constructed DOMException is modelled by a `Nat` id drawn from a counter.
-/

namespace AbortLib

/-- A JS value used as an abort reason.  `abortError` / `timeoutError`
model DOMException instances with the corresponding `name`; the id models
the object identity of one constructor call, so two separately
constructed errors carry distinct ids.  `custom v` models any other user
value. -/
inductive Reason where
  | abortError (id : Nat)
  | timeoutError (id : Nat)
  | custom (v : Nat)
deriving DecidableEq

/-- Predicate `isTimeoutError` from timeout-error.ts: true exactly for values that
are DOMExceptions named TimeoutError. -/
def isTimeoutError : Reason → Bool
  | .timeoutError _ => true
  | _ => false

/-- Predicate `isTimeoutError` applied to a possibly-undefined JS value
(`isTimeoutError(undefined) = false`). -/
def isTimeoutErrorO : Option Reason → Bool
  | some r => isTimeoutError r
  | none => false

/-! ## The promise-chain world (abortable-promise.ts) -/

/-- State of the underlying native promise of one node.  The native
primitive guarantees single settlement: a resolve or reject on an
already-settled promise is ignored. -/
inductive PState where
  | pending
  | resolved (v : Nat)
  | rejected (r : Option Reason)
deriving DecidableEq

/-- One `AbortablePromise` node: `parent` is `_parent` (a root points to
itself), `isSettled` is `_isSettled`, `signal` is `_signal` (an index
into the world's signal table), `underlying` the wrapped promise.  The
`_reject` capability is represented by the ability to update
`underlying` directly. -/
structure PNode where
  parent : Nat
  isSettled : Bool
  signal : Option Nat
  underlying : PState
deriving DecidableEq

/-- A signal as seen from abortable-promise.ts.  `plus` is an
`AbortSignalPlus` (backed by its controller's native signal); `nativeS`
is a foreign native `AbortSignal`, where `ownAborted` / `ownReason`
model the own properties force-defined by `Object.defineProperty` in
`AbortablePromise.abort` (they shadow the native slots when present, and
are non-configurable and non-writable once defined). -/
inductive PSig where
  | plus (aborted : Bool) (reason : Option Reason)
  | nativeS (aborted : Bool) (reason : Option Reason)
      (ownAborted : Bool) (ownReason : Option Reason)
deriving DecidableEq

/-- Reading `signal.aborted` through the wrapper: an own defined property
shadows the native slot. -/
def PSig.abortedB : PSig → Bool
  | .plus a _ => a
  | .nativeS a _ ownA _ => ownA || a

/-- Reading `signal.reason`: an own defined property shadows the native slot. -/
def PSig.reasonV : PSig → Option Reason
  | .plus _ r => r
  | .nativeS _ r _ ownR =>
    match ownR with
    | some r0 => some r0
    | none => r

/-- The world of abortable-promise.ts: the arena of promise nodes, the
table of signals they may be bound to, the pending one-shot abort
listeners `(signal, node)` registered by `listen`, and a counter for
fresh DOMException identities. -/
structure PWorld where
  nodes : List PNode
  sigs : List PSig
  listeners : List (Nat × Nat)
  fresh : Nat
deriving DecidableEq

def defaultPNode : PNode := ⟨0, false, none, .pending⟩

def defaultPSig : PSig := .plus false none

def PWorld.node (w : PWorld) (i : Nat) : PNode := w.nodes.getD i defaultPNode

def PWorld.sig (w : PWorld) (s : Nat) : PSig := w.sigs.getD s defaultPSig

def PWorld.setNode (w : PWorld) (i : Nat) (f : PNode → PNode) : PWorld :=
  { w with nodes := w.nodes.set i (f (w.node i)) }

def PWorld.setSig (w : PWorld) (s : Nat) (c : PSig) : PWorld :=
  { w with sigs := w.sigs.set s c }

/-- The loop body of `_doAbort` (abortable-promise.ts lines 432-441):
starting at `i`, break when the node is its own parent, break when the
parent is already settled, otherwise move to the parent.  The fuel is an
artifact of the embedding; `i + 1` steps always suffice because in every
state built by this library a parent index is at most the child's
index. -/
def walkAux (w : PWorld) : Nat → Nat → Nat
  | i, 0 => i
  | i, fuel + 1 =>
    let p := (w.node i).parent
    if p = i then i
    else if (w.node p).isSettled then i
    else walkAux w p fuel

/-- The node located by `_doAbort`'s chain walk. -/
def chainWalk (w : PWorld) (i : Nat) : Nat := walkAux w i (i + 1)

/-- The single-settlement reject of the native promise: a pending
promise becomes rejected, a settled one is left unchanged. -/
def rejectP : PState → Option Reason → PState
  | .pending, r => .rejected r
  | st, _ => st

/-- Method `_doAbort(reason)` (lines 428-443): walk the chain, then invoke the
located node's captured `_reject` once with `reason`.  Note the raw
`thisReject` stored at line 31 is invoked, not the flag-setting wrapper
handed to the executor, so `_isSettled` is not touched here. -/
def doAbortW (w : PWorld) (i : Nat) (r : Option Reason) : PWorld :=
  let t := chainWalk w i
  w.setNode t (fun nd => { nd with underlying := rejectP nd.underlying r })

/-- Dispatching the abort event of signal `s`: every pending one-shot
listener registered on `s` by `listen` runs `this._doAbort(signal.reason)`
reading `signal.reason` at run time, and is removed ({ once: true }). -/
def runPListeners (w : PWorld) (s : Nat) : PWorld :=
  let ls := w.listeners.filter (fun p => p.1 == s)
  let w1 := { w with listeners := w.listeners.filter (fun p => !(p.1 == s)) }
  ls.foldl (fun acc p => doAbortW acc p.2 ((acc.sig s).reasonV)) w1

/-- An external abort of signal `s` with (defined) reason `r`: the
native single-fire transition followed by the abort event dispatch.
For an `AbortSignalPlus` this is its controller aborting; for a native
signal it is the native AbortController firing. -/
def fireSigW (w : PWorld) (s : Nat) (r : Reason) : PWorld :=
  match w.sig s with
  | .plus a _ =>
    if a then w
    else runPListeners (w.setSig s (.plus true (some r))) s
  | .nativeS a _ ownA ownR =>
    if a then w
    else runPListeners (w.setSig s (.nativeS true (some r) ownA ownR)) s

/-- Method `listen(signal)` (lines 160-174): store the signal, then either
reject immediately through the chain walk when the signal is already
aborted, or register a one-shot abort listener. -/
def listenW (w : PWorld) (i : Nat) (s : Nat) : PWorld :=
  let w1 := w.setNode i (fun nd => { nd with signal := some s })
  if (w1.sig s).abortedB then doAbortW w1 i ((w1.sig s).reasonV)
  else { w1 with listeners := w1.listeners ++ [(s, i)] }

/-- An action the executor performs on the capabilities it was handed. -/
inductive ExecAct where
  | resolveA (v : Nat)
  | rejectA (r : Option Reason)
deriving DecidableEq

/-- The resolve wrapper handed to the executor (lines 37-40):
`thisResolve(value); this._isSettled = true` — the flag is set
unconditionally, while the native promise ignores the call if already
settled. -/
def execResolveW (w : PWorld) (i : Nat) (v : Nat) : PWorld :=
  w.setNode i (fun nd =>
    { nd with
        underlying := match nd.underlying with | .pending => .resolved v | st => st,
        isSettled := true })

/-- The reject wrapper handed to the executor (lines 41-44). -/
def execRejectW (w : PWorld) (i : Nat) (r : Option Reason) : PWorld :=
  w.setNode i (fun nd =>
    { nd with underlying := rejectP nd.underlying r, isSettled := true })

/-- Running the executor's actions on node `i` through the wrappers. -/
def runExec (i : Nat) : PWorld → List ExecAct → PWorld
  | w, [] => w
  | w, .resolveA v :: rest => runExec i (execResolveW w i v) rest
  | w, .rejectA r :: rest => runExec i (execRejectW w i r) rest

/-- The constructor (lines 16-47): allocate a fresh root node
(`_parent = this`, `_isSettled = false`), `listen` to the signal when
one is supplied, then run the executor. -/
def constructW (w : PWorld) (sg : Option Nat) (acts : List ExecAct) :
    PWorld × Nat :=
  let i := w.nodes.length
  let w1 := { w with nodes := w.nodes ++ [⟨i, false, none, .pending⟩] }
  let w2 :=
    match sg with
    | some s => listenW w1 i s
    | none => w1
  (runExec i w2 acts, i)

/-- Methods `then` / `catch` / `finally` (lines 183-236): the derived node wraps
the native sequencing result and gets `_parent` set to the receiver. -/
def thenW (w : PWorld) (i : Nat) : PWorld × Nat :=
  (⟨w.nodes ++ [⟨i, false, none, .pending⟩], w.sigs, w.listeners, w.fresh⟩,
   w.nodes.length)

/-- JS `Object.defineProperty(signal, "reason", { value: r })` against a
possibly already force-defined own `reason` property: defining it the
first time succeeds; redefining the non-configurable, non-writable
property succeeds only when the value is unchanged (SameValue), and
throws a TypeError otherwise (`none` models the throw). -/
def defineReasonProp (ownR : Option Reason) (r : Reason) :
    Option (Option Reason) :=
  match ownR with
  | none => some (some r)
  | some r0 => if r0 = r then some (some r0) else none

/-- Method `abort(reason?)` (lines 138-152): default the reason to a fresh
`AbortError`, run `_doAbort`, then mark the bound signal: an
`AbortSignalPlus` through its controller's single-fire `abort`, a
foreign native signal by force-defining its `aborted` and `reason`
properties and dispatching an abort event.  The returned flag records
whether a TypeError escaped (from the `defineProperty` redefinition). -/
def nodeAbort (w : PWorld) (i : Nat) (rq : Option Reason) : PWorld × Bool :=
  let rw : Reason × PWorld :=
    match rq with
    | some r => (r, w)
    | none => (.abortError w.fresh, { w with fresh := w.fresh + 1 })
  let r := rw.1
  let w1 := doAbortW rw.2 i (some r)
  match (w1.node i).signal with
  | none => (w1, false)
  | some s =>
    match w1.sig s with
    | .plus a _ =>
      if a then (w1, false)
      else (runPListeners (w1.setSig s (.plus true (some r))) s, false)
    | .nativeS a rs _ ownR =>
      match defineReasonProp ownR r with
      | none => (w1.setSig s (.nativeS a rs true ownR), true)
      | some ownR2 =>
        (runPListeners (w1.setSig s (.nativeS a rs true ownR2)) s, false)

/-- A promise value as passed to `AbortablePromise.from`: either a plain
native promise (identified by a key) or an existing node of the arena. -/
inductive PromiseVal where
  | plainP (k : Nat)
  | nodeP (i : Nat)
deriving DecidableEq

/-- Method `AbortablePromise.from(promise, signal?)` (lines 98-109): an
existing `AbortablePromise` is returned as is; a plain promise is
wrapped in a fresh node whose executor chains resolution off the plain
promise (asynchronously, so no immediate executor action). -/
def fromW (w : PWorld) (p : PromiseVal) (sg : Option Nat) :
    PWorld × PromiseVal :=
  match p with
  | .nodeP i => (w, .nodeP i)
  | .plainP _ =>
    let wi := constructW w sg []
    (wi.1, .nodeP wi.2)

/-- The operations of abortable-promise.ts as a single event alphabet,
used to state invariants over every reachable behaviour. -/
inductive POp where
  | constructO (sg : Option Nat) (acts : List ExecAct)
  | thenO (i : Nat)
  | listenO (i : Nat) (s : Nat)
  | abortO (i : Nat) (rq : Option Reason)
  | fireO (s : Nat) (r : Reason)
  | execResolveO (i : Nat) (v : Nat)
  | execRejectO (i : Nat) (r : Option Reason)
deriving DecidableEq

def applyPOp (w : PWorld) : POp → PWorld
  | .constructO sg acts => (constructW w sg acts).1
  | .thenO i => (thenW w i).1
  | .listenO i s => listenW w i s
  | .abortO i rq => (nodeAbort w i rq).1
  | .fireO s r => fireSigW w s r
  | .execResolveO i v => execResolveW w i v
  | .execRejectO i r => execRejectW w i r

def applyPOps : PWorld → List POp → PWorld := List.foldl applyPOp

/-- Well-formed parent links: every node's parent was created no later
than the node itself.  Constructed roots are their own parent and
`then`-derived nodes point at an existing node, so every reachable world
satisfies this. -/
def WF (w : PWorld) : Prop :=
  ∀ j, j < w.nodes.length → (w.node j).parent ≤ j

/-- The chain walk described by the spec, as a stopping relation:
starting from a node, repeatedly move to the parent while the node is
not its own parent and the parent is not settled; the result is the
first node that is its own parent or whose parent is already settled. -/
inductive WalkStops (par : Nat → Nat) (stl : Nat → Bool) : Nat → Nat → Prop where
  | stop (i : Nat) : par i = i ∨ stl (par i) = true → WalkStops par stl i i
  | step (i t : Nat) : par i ≠ i → stl (par i) = false →
      WalkStops par stl (par i) t → WalkStops par stl i t

/-! ## The signal-composition world (abort-signal-plus.ts) -/

/-- One cancellation signal/controller pair as seen from
abort-signal-plus.ts: the native aborted flag and reason of the
controller's signal.  An unaborted signal has reason `none`
(undefined). -/
structure CSig where
  aborted : Bool
  reason : Option Reason
deriving DecidableEq

/-- The world of abort-signal-plus.ts: the table of signals, the pending
one-shot abort listeners `(source, targetController)` registered by
`_listen`, and the counter for fresh DOMException identities. -/
structure CWorld where
  sigs : List CSig
  listeners : List (Nat × Nat)
  fresh : Nat
deriving DecidableEq

def defaultCSig : CSig := ⟨false, none⟩

def CWorld.sig (w : CWorld) (s : Nat) : CSig := w.sigs.getD s defaultCSig

def CWorld.setSig (w : CWorld) (s : Nat) (c : CSig) : CWorld :=
  { w with sigs := w.sigs.set s c }

/-- Method `AbortControllerPlus.abort(reason)` first evaluates
`reason ?? new AbortError()` (abort-controller-plus.ts line 32): a fresh
`AbortError` is constructed when the argument is undefined. -/
def ctrlAbortReasonC (w : CWorld) (rq : Option Reason) : Reason × CWorld :=
  match rq with
  | some r => (r, w)
  | none => (.abortError w.fresh, { w with fresh := w.fresh + 1 })

/-- Aborting controller `s` with argument `rq` and dispatching the abort
event.  The native controller fires at most once; on the first fire
every pending one-shot listener registered on `s` runs
`this._controller.abort(isTimeoutError(signal.reason) ? new TimeoutError()
: signal.reason)` (abort-signal-plus.ts lines 252-260), reading
`signal.reason` and constructing the fresh `TimeoutError` at run time,
which recursively aborts the listening controller.  The fuel bounds the
cascade depth; each level aborts a previously unaborted signal, so any
fuel larger than the number of signals is exact. -/
def fireC : Nat → CWorld → Nat → Option Reason → CWorld
  | 0, w, _, _ => w
  | fuel + 1, w, s, rq =>
    let rw := ctrlAbortReasonC w rq
    let r := rw.1
    let w0 := rw.2
    if (w0.sig s).aborted then w0
    else
      let w1 := w0.setSig s ⟨true, some r⟩
      let ls := w1.listeners.filter (fun p => p.1 == s)
      let w2 := { w1 with listeners := w1.listeners.filter (fun p => !(p.1 == s)) }
      ls.foldl (fun acc p =>
        let r2 := (acc.sig s).reason
        let tr : Option Reason :=
          if isTimeoutErrorO r2 then some (.timeoutError acc.fresh) else r2
        let acc1 := if isTimeoutErrorO r2 then { acc with fresh := acc.fresh + 1 } else acc
        fireC fuel acc1 p.2 tr) w2

/-- An external abort of source signal `s` with reason `r` (for example
its own controller firing, or a native timeout elapsing), with enough
fuel for every cascade. -/
def extFire (w : CWorld) (s : Nat) (r : Reason) : CWorld :=
  fireC (w.sigs.length + 1) w s (some r)

/-- Method `_listen(signal)` (abort-signal-plus.ts lines 244-262): if the
source is already aborted, abort this signal's controller now with the
translated reason and report `true`; otherwise register a one-shot abort
listener on the source and report `false`. -/
def listenC (w : CWorld) (tgt src : Nat) : CWorld × Bool :=
  if (w.sig src).aborted then
    let rq := (w.sig src).reason
    let tr : Option Reason :=
      if isTimeoutErrorO rq then some (.timeoutError w.fresh) else rq
    let w1 := if isTimeoutErrorO rq then { w with fresh := w.fresh + 1 } else w
    (fireC (w1.sigs.length + 1) w1 tgt tr, true)
  else
    ({ w with listeners := w.listeners ++ [(src, tgt)] }, false)

/-- Method `one(signal)` (lines 174-177): `_listen` then return this. -/
def oneC (w : CWorld) (tgt src : Nat) : CWorld × Nat :=
  ((listenC w tgt src).1, tgt)

/-- Method `any(signals)` (lines 199-206): iterate the sources once in order,
stopping after the first one `_listen` reports as already aborted. -/
def anyC (w : CWorld) (tgt : Nat) : List Nat → CWorld
  | [] => w
  | s :: rest =>
    let wb := listenC w tgt s
    if wb.2 then wb.1 else anyC wb.1 tgt rest

/-- Allocating a fresh `AbortControllerPlus` and its signal
(`_createController()` with no argument). -/
def allocSigC (w : CWorld) : CWorld × Nat :=
  ({ w with sigs := w.sigs ++ [defaultCSig] }, w.sigs.length)

/-- A signal value as passed to `AbortSignalPlus.from`: either an
existing `AbortSignalPlus` or a plain native `AbortSignal`, both
indexing the signal table. -/
inductive SigVal where
  | plusV (s : Nat)
  | nativeV (s : Nat)
deriving DecidableEq

/-- Method `AbortSignalPlus.from(signal)` (lines 25-30): an `AbortSignalPlus`
argument is returned as is; anything else is wrapped through the static
`one`, which allocates a fresh controller and listens to the source. -/
def sigFromC (w : CWorld) (v : SigVal) : CWorld × SigVal :=
  match v with
  | .plusV s => (w, .plusV s)
  | .nativeV s =>
    let wt := allocSigC w
    ((oneC wt.1 wt.2 s).1, .plusV wt.2)

/-! ## The timer world (AbortSignalPlus.timeout / hasTimeout) -/

/-- One host timer: its deadline and whether it is still armed.  A fired
or cleared timer stays in the table with `active = false`, so handles
are stable. -/
structure TimerEntry where
  deadline : Nat
  active : Bool
deriving DecidableEq

/-- The state of one `AbortSignalPlus` together with the host timer
queue: `sid` is the identity of the signal object, `timerH` the
`_timer` handle, `tmo` the `_timeout` field, `clearers` the number of
pending `{ once: true }` abort listeners registered by `timeout()` that
clear the timer, `now` the host clock and `fresh` the DOMException
identity counter. -/
structure TSigW where
  sid : Nat
  timers : List TimerEntry
  timerH : Option Nat
  tmo : Option Nat
  aborted : Bool
  reason : Option Reason
  clearers : Nat
  now : Nat
  fresh : Nat
deriving DecidableEq

/-- A pristine signal as produced by `new AbortControllerPlus().signal`. -/
def initTSig : TSigW := ⟨0, [], none, none, false, none, 0, 0, 0⟩

/-- Host `clearTimeout(handle)`: disarm the timer if the handle is defined;
`clearTimeout(undefined)` is a no-op. -/
def clearT (ts : List TimerEntry) : Option Nat → List TimerEntry
  | none => ts
  | some h => ts.set h { ts.getD h ⟨0, false⟩ with active := false }

/-- Method `timeout(milliseconds)` (abort-signal-plus.ts lines 123-141):
`clearTimeout(this._timer)`, record `_timeout`, arm a fresh host timer
and store its handle in `_timer`, and register one more `{ once: true }`
abort listener that clears the timer. -/
def timeoutOp (w : TSigW) (ms : Nat) : TSigW :=
  let ts1 := clearT w.timers w.timerH
  let h := ts1.length
  { w with
      timers := ts1 ++ [⟨w.now + ms, true⟩],
      timerH := some h,
      tmo := some ms,
      clearers := w.clearers + 1 }

/-- Method `timeout` returns `this` (line 140): the same signal identity. -/
def timeoutCall (w : TSigW) (ms : Nat) : TSigW × Nat := (timeoutOp w ms, w.sid)

/-- Method `hasTimeout()` (lines 148-150) tests `_timer` being defined. -/
def hasTimeoutM (w : TSigW) : Bool := w.timerH.isSome

/-- The controller aborting with reason `r`: the native single-fire
transition, after which the abort event runs every pending `{ once }`
listener registered by `timeout()`; the first listener clears the
current `_timer` and sets it undefined, the rest see `_timer` undefined
and do nothing. -/
def abortSigT (w : TSigW) (r : Reason) : TSigW :=
  if w.aborted then w
  else
    let w1 := { w with aborted := true, reason := some r }
    if w1.clearers = 0 then w1
    else
      { w1 with
          timers := clearT w1.timers w1.timerH,
          timerH := none,
          tmo := none,
          clearers := 0 }

/-- The host firing timer `h`: the timer is dequeued, then the callback
(lines 126-130) runs `this._controller.abort(new TimeoutError())` and
sets `_timer` and `_timeout` undefined. -/
def fireTimerT (w : TSigW) (h : Nat) : TSigW :=
  let w1 := { w with timers := clearT w.timers (some h) }
  let w2 := abortSigT { w1 with fresh := w1.fresh + 1 } (.timeoutError w1.fresh)
  { w2 with timerH := none, tmo := none }

/-- The earliest armed timer whose deadline has been reached. -/
def dueTimerT (w : TSigW) : Option Nat :=
  (List.range w.timers.length).find? (fun h =>
    (w.timers.getD h ⟨0, false⟩).active
      && decide ((w.timers.getD h ⟨0, false⟩).deadline ≤ w.now))

/-- Fire every due timer in turn. -/
def runDueT : Nat → TSigW → TSigW
  | 0, w => w
  | fuel + 1, w =>
    match dueTimerT w with
    | none => w
    | some h => runDueT fuel (fireTimerT w h)

/-- Advance the host clock to `t` and fire every timer that became due. -/
def elapseTo (w : TSigW) (t : Nat) : TSigW :=
  let w1 := { w with now := max w.now t }
  runDueT (w1.timers.length + 1) w1

/-- The operations touching one signal's timer state. -/
inductive TOp where
  | timeoutO (ms : Nat)
  | abortO (r : Reason)
  | elapseO (t : Nat)
deriving DecidableEq

def applyTOp (w : TSigW) : TOp → TSigW
  | .timeoutO ms => timeoutOp w ms
  | .abortO r => abortSigT w r
  | .elapseO t => elapseTo w t

def applyTOps : TSigW → List TOp → TSigW := List.foldl applyTOp

/-- The timer bookkeeping invariant of a reachable signal state: every
armed timer's handle is the stored `_timer` handle (so at most one timer
is armed), the stored handle is in range, and while a handle is stored
at least one clearing abort listener is registered. -/
def InvT (w : TSigW) : Prop :=
  (∀ h, h < w.timers.length → (w.timers.getD h ⟨0, false⟩).active = true →
    w.timerH = some h)
  ∧ (∀ h, w.timerH = some h → h < w.timers.length)
  ∧ (w.timerH.isSome → 1 ≤ w.clearers)

/-! ## List access helpers -/

theorem getD_set_self {α : Type} (l : List α) (i : Nat) (a d : α)
    (h : i < l.length) : (l.set i a).getD i d = a := by
  rw [List.getD_eq_getElem _ _ (by simpa using h)]
  exact List.getElem_set_self _

theorem getD_set_ne {α : Type} (l : List α) (i j : Nat) (a d : α)
    (h : j ≠ i) : (l.set i a).getD j d = l.getD j d := by
  rcases Nat.lt_or_ge j l.length with hj | hj
  · rw [List.getD_eq_getElem _ _ (by simpa using hj),
      List.getD_eq_getElem _ _ hj]
    exact List.getElem_set_ne (fun hij => h hij.symm) _
  · rw [List.getD_eq_default _ _ (by simpa using hj),
      List.getD_eq_default _ _ hj]

/-- The basic case split for reading a node after `setNode`. -/
theorem node_setNode (w : PWorld) (i : Nat) (f : PNode → PNode) (j : Nat) :
    (w.setNode i f).node j =
      if j = i ∧ i < w.nodes.length then f (w.node i) else w.node j := by
  by_cases hlen : i < w.nodes.length
  · by_cases hji : j = i
    · subst hji
      rw [if_pos ⟨rfl, hlen⟩]
      exact getD_set_self _ _ _ _ hlen
    · rw [if_neg (fun hc => hji hc.1)]
      exact getD_set_ne _ _ _ _ _ hji
  · rw [if_neg (fun hc => hlen hc.2)]
    show (w.nodes.set i _).getD j defaultPNode = w.node j
    rw [List.set_eq_of_length_le (Nat.le_of_not_lt hlen)]
    rfl

theorem sig_setNode (w : PWorld) (i : Nat) (f : PNode → PNode) (s : Nat) :
    (w.setNode i f).sig s = w.sig s := rfl

theorem node_setSig (w : PWorld) (s : Nat) (c : PSig) (j : Nat) :
    (w.setSig s c).node j = w.node j := rfl

theorem sig_setSig (w : PWorld) (s : Nat) (c : PSig) (s2 : Nat) :
    (w.setSig s c).sig s2 =
      if s2 = s ∧ s < w.sigs.length then c else w.sig s2 := by
  by_cases hlen : s < w.sigs.length
  · by_cases hss : s2 = s
    · subst hss
      rw [if_pos ⟨rfl, hlen⟩]
      exact getD_set_self _ _ _ _ hlen
    · rw [if_neg (fun hc => hss hc.1)]
      exact getD_set_ne _ _ _ _ _ hss
  · rw [if_neg (fun hc => hlen hc.2)]
    show (w.sigs.set s _).getD s2 defaultPSig = w.sig s2
    rw [List.set_eq_of_length_le (Nat.le_of_not_lt hlen)]
    rfl

instance decWF (w : PWorld) : Decidable (WF w) := by
  unfold WF
  infer_instance

/-! ## The chain walk: soundness of `_doAbort`'s loop (C1) -/

theorem walkAux_stops (w : PWorld) (hwf : WF w) :
    ∀ fuel i, i < w.nodes.length → i < fuel →
      WalkStops (fun j => (w.node j).parent) (fun j => (w.node j).isSettled)
        i (walkAux w i fuel) := by
  intro fuel
  induction fuel with
  | zero => intro i _ hif; exact absurd hif (Nat.not_lt_zero i)
  | succ fuel ih =>
    intro i hi hif
    by_cases hp : (w.node i).parent = i
    · simpa [walkAux, hp] using WalkStops.stop i (Or.inl hp)
    · by_cases hs : (w.node ((w.node i).parent)).isSettled = true
      · simpa [walkAux, hp, hs] using WalkStops.stop i (Or.inr hs)
      · have hple : (w.node i).parent ≤ i := hwf i hi
        have hplt : (w.node i).parent < i := Nat.lt_of_le_of_ne hple hp
        have hrec := ih ((w.node i).parent) (Nat.lt_trans hplt hi)
          (Nat.lt_of_lt_of_le hplt (Nat.le_of_lt_succ hif))
        have hs' : (w.node ((w.node i).parent)).isSettled = false :=
          Bool.eq_false_iff.mpr hs
        simpa [walkAux, hp, hs'] using WalkStops.step i _ hp hs' hrec

theorem walkAux_le (w : PWorld) (hwf : WF w) :
    ∀ fuel i, i < w.nodes.length → walkAux w i fuel ≤ i := by
  intro fuel
  induction fuel with
  | zero => intro i _; exact Nat.le_refl i
  | succ fuel ih =>
    intro i hi
    by_cases hp : (w.node i).parent = i
    · simp [walkAux, hp]
    · by_cases hs : (w.node ((w.node i).parent)).isSettled = true
      · simp [walkAux, hp, hs]
      · have hple : (w.node i).parent ≤ i := hwf i hi
        have hs' : (w.node ((w.node i).parent)).isSettled = false :=
          Bool.eq_false_iff.mpr hs
        have := ih ((w.node i).parent) (Nat.lt_of_le_of_lt hple hi)
        calc walkAux w i (fuel + 1) = walkAux w ((w.node i).parent) fuel := by
              simp [walkAux, hp, hs']
          _ ≤ (w.node i).parent := this
          _ ≤ i := hple

theorem chainWalk_lt (w : PWorld) (i : Nat) (hwf : WF w)
    (hi : i < w.nodes.length) : chainWalk w i < w.nodes.length :=
  Nat.lt_of_le_of_lt (walkAux_le w hwf (i + 1) i hi) hi

/-- C1: `abort`, through `_doAbort`, locates its target by the chain
walk — move to the parent while the node is not its own parent and the
parent is unsettled, stopping at the first self-parented node or node
whose parent is settled — and invokes exactly the located node's
captured reject with the given reason: the located node's underlying
promise receives the single rejection (subject to the primitive's
single-settlement rule) and every other node is untouched. -/
theorem doAbort_chain_walk (w : PWorld) (i : Nat) (r : Option Reason)
    (hwf : WF w) (hi : i < w.nodes.length) :
    WalkStops (fun j => (w.node j).parent) (fun j => (w.node j).isSettled)
      i (chainWalk w i)
    ∧ (doAbortW w i r).node (chainWalk w i)
        = { w.node (chainWalk w i) with
              underlying := rejectP ((w.node (chainWalk w i)).underlying) r }
    ∧ (∀ j, j ≠ chainWalk w i → (doAbortW w i r).node j = w.node j) := by
  refine ⟨walkAux_stops w hwf (i + 1) i hi (Nat.lt_succ_self i), ?_, ?_⟩
  · rw [doAbortW, node_setNode]
    simp [chainWalk_lt w i hwf hi]
  · intro j hj
    rw [doAbortW, node_setNode]
    simp [hj]

/-- Witness for C1 on a three-node chain 0 ← 1 ← 2 whose root 0 has
already settled: aborting node 2 walks to node 1 and rejects exactly
node 1. -/
theorem doAbort_chain_walk_witness :
    WalkStops
      (fun j => ((⟨[⟨0, true, none, .resolved 1⟩, ⟨0, false, none, .pending⟩,
        ⟨1, false, none, .pending⟩], [], [], 0⟩ : PWorld).node j).parent)
      (fun j => ((⟨[⟨0, true, none, .resolved 1⟩, ⟨0, false, none, .pending⟩,
        ⟨1, false, none, .pending⟩], [], [], 0⟩ : PWorld).node j).isSettled)
      2 (chainWalk ⟨[⟨0, true, none, .resolved 1⟩, ⟨0, false, none, .pending⟩,
        ⟨1, false, none, .pending⟩], [], [], 0⟩ 2)
    ∧ (doAbortW ⟨[⟨0, true, none, .resolved 1⟩, ⟨0, false, none, .pending⟩,
        ⟨1, false, none, .pending⟩], [], [], 0⟩ 2 (some (.custom 7))).node
        (chainWalk ⟨[⟨0, true, none, .resolved 1⟩, ⟨0, false, none, .pending⟩,
          ⟨1, false, none, .pending⟩], [], [], 0⟩ 2)
        = { (⟨[⟨0, true, none, .resolved 1⟩, ⟨0, false, none, .pending⟩,
              ⟨1, false, none, .pending⟩], [], [], 0⟩ : PWorld).node
              (chainWalk ⟨[⟨0, true, none, .resolved 1⟩,
                ⟨0, false, none, .pending⟩, ⟨1, false, none, .pending⟩],
                [], [], 0⟩ 2) with
            underlying := rejectP
              (((⟨[⟨0, true, none, .resolved 1⟩, ⟨0, false, none, .pending⟩,
                ⟨1, false, none, .pending⟩], [], [], 0⟩ : PWorld).node
                (chainWalk ⟨[⟨0, true, none, .resolved 1⟩,
                  ⟨0, false, none, .pending⟩, ⟨1, false, none, .pending⟩],
                  [], [], 0⟩ 2)).underlying) (some (.custom 7)) }
    ∧ (∀ j, j ≠ chainWalk ⟨[⟨0, true, none, .resolved 1⟩,
          ⟨0, false, none, .pending⟩, ⟨1, false, none, .pending⟩],
          [], [], 0⟩ 2 →
        (doAbortW ⟨[⟨0, true, none, .resolved 1⟩, ⟨0, false, none, .pending⟩,
          ⟨1, false, none, .pending⟩], [], [], 0⟩ 2 (some (.custom 7))).node j
          = (⟨[⟨0, true, none, .resolved 1⟩, ⟨0, false, none, .pending⟩,
              ⟨1, false, none, .pending⟩], [], [], 0⟩ : PWorld).node j) :=
  doAbort_chain_walk _ 2 (some (.custom 7)) (by decide) (by decide)

/-! ## The `_isSettled` flag: what the code actually maintains (C2) -/

theorem isSettled_doAbortW (w : PWorld) (i : Nat) (r : Option Reason)
    (j : Nat) : ((doAbortW w i r).node j).isSettled = (w.node j).isSettled := by
  rw [doAbortW, node_setNode]
  split
  · rename_i h
    rw [h.1]
  · rfl

theorem isSettled_foldl_doAbort (l : List (Nat × Nat)) (w : PWorld)
    (s j : Nat) :
    ((l.foldl (fun acc p => doAbortW acc p.2 ((acc.sig s).reasonV)) w).node j).isSettled
      = (w.node j).isSettled := by
  induction l generalizing w with
  | nil => rfl
  | cons p rest ih =>
    rw [List.foldl_cons, ih, isSettled_doAbortW]

theorem isSettled_runPListeners (w : PWorld) (s j : Nat) :
    ((runPListeners w s).node j).isSettled = (w.node j).isSettled := by
  rw [runPListeners]
  exact isSettled_foldl_doAbort _ _ _ _

theorem isSettled_fireSigW (w : PWorld) (s : Nat) (r : Reason) (j : Nat) :
    ((fireSigW w s r).node j).isSettled = (w.node j).isSettled := by
  rw [fireSigW]
  split
  · split
    · rfl
    · rw [isSettled_runPListeners]; rfl
  · split
    · rfl
    · rw [isSettled_runPListeners]; rfl

theorem isSettled_listenW_mono (w : PWorld) (i s : Nat) (j : Nat)
    (h : (w.node j).isSettled = true) :
    ((listenW w i s).node j).isSettled = true := by
  have hset :
      ((w.setNode i (fun nd => { nd with signal := some s })).node j).isSettled
        = true := by
    rw [node_setNode]
    split
    · rename_i hc
      show (w.node i).isSettled = true
      rw [← hc.1]; exact h
    · exact h
  unfold listenW
  dsimp only
  split
  · rw [isSettled_doAbortW]
    exact hset
  · exact hset

theorem isSettled_execResolveW_mono (w : PWorld) (i v : Nat) (j : Nat)
    (h : (w.node j).isSettled = true) :
    ((execResolveW w i v).node j).isSettled = true := by
  rw [execResolveW, node_setNode]
  split
  · rfl
  · exact h

theorem isSettled_execRejectW_mono (w : PWorld) (i : Nat) (r : Option Reason)
    (j : Nat) (h : (w.node j).isSettled = true) :
    ((execRejectW w i r).node j).isSettled = true := by
  rw [execRejectW, node_setNode]
  split
  · rfl
  · exact h

theorem isSettled_runExec_mono (acts : List ExecAct) (w : PWorld) (i : Nat)
    (j : Nat) (h : (w.node j).isSettled = true) :
    ((runExec i w acts).node j).isSettled = true := by
  induction acts generalizing w with
  | nil => exact h
  | cons a rest ih =>
    cases a with
    | resolveA v =>
      rw [runExec]
      exact ih _ (isSettled_execResolveW_mono w i v j h)
    | rejectA r =>
      rw [runExec]
      exact ih _ (isSettled_execRejectW_mono w i r j h)

theorem node_append_of_lt (w : PWorld) (nd : PNode) (j : Nat)
    (h : j < w.nodes.length) :
    ((⟨w.nodes ++ [nd], w.sigs, w.listeners, w.fresh⟩ : PWorld).node j)
      = w.node j := by
  show (w.nodes ++ [nd]).getD j defaultPNode = w.nodes.getD j defaultPNode
  exact List.getD_append _ _ _ _ h

theorem isSettled_true_lt (w : PWorld) (j : Nat)
    (h : (w.node j).isSettled = true) : j < w.nodes.length := by
  by_contra hc
  have : w.node j = defaultPNode := by
    show w.nodes.getD j defaultPNode = defaultPNode
    exact List.getD_eq_default _ _ (Nat.le_of_not_lt hc)
  rw [this] at h
  exact Bool.false_ne_true h

theorem isSettled_constructW_mono (w : PWorld) (sg : Option Nat)
    (acts : List ExecAct) (j : Nat) (h : (w.node j).isSettled = true) :
    (((constructW w sg acts).1.node j)).isSettled = true := by
  have hj : j < w.nodes.length := isSettled_true_lt w j h
  have happ : ((⟨w.nodes ++ [⟨w.nodes.length, false, none, .pending⟩],
      w.sigs, w.listeners, w.fresh⟩ : PWorld).node j).isSettled = true := by
    rw [node_append_of_lt _ _ _ hj]; exact h
  cases sg with
  | none => exact isSettled_runExec_mono acts _ w.nodes.length j happ
  | some s =>
    exact isSettled_runExec_mono acts _ w.nodes.length j
      (isSettled_listenW_mono _ w.nodes.length s j happ)

theorem isSettled_nodeAbort_mono (w : PWorld) (i : Nat) (rq : Option Reason)
    (j : Nat) (h : (w.node j).isSettled = true) :
    (((nodeAbort w i rq).1.node j)).isSettled = true := by
  have key : ∀ (w0 : PWorld), (w0.node j).isSettled = true →
      ∀ (r : Reason), (((nodeAbort w0 i (some r)).1.node j)).isSettled = true := by
    intro w0 h0 r
    have hd : ((doAbortW w0 i (some r)).node j).isSettled = true := by
      rw [isSettled_doAbortW]; exact h0
    unfold nodeAbort
    dsimp only
    split
    · exact hd
    · split
      · split
        · exact hd
        · dsimp only
          rw [isSettled_runPListeners, node_setSig]
          exact hd
      · split
        · dsimp only
          rw [node_setSig]
          exact hd
        · dsimp only
          rw [isSettled_runPListeners, node_setSig]
          exact hd
  cases rq with
  | some r => exact key w h r
  | none => exact key ⟨w.nodes, w.sigs, w.listeners, w.fresh + 1⟩ h _

theorem isSettled_applyPOp_mono (w : PWorld) (op : POp) (j : Nat)
    (h : (w.node j).isSettled = true) :
    ((applyPOp w op).node j).isSettled = true := by
  cases op with
  | constructO sg acts => exact isSettled_constructW_mono w sg acts j h
  | thenO i =>
    show ((⟨w.nodes ++ [⟨i, false, none, .pending⟩], w.sigs, w.listeners,
      w.fresh⟩ : PWorld).node j).isSettled = true
    rw [node_append_of_lt _ _ _ (isSettled_true_lt w j h)]
    exact h
  | listenO i s => exact isSettled_listenW_mono w i s j h
  | abortO i rq => exact isSettled_nodeAbort_mono w i rq j h
  | fireO s r => rw [applyPOp, isSettled_fireSigW]; exact h
  | execResolveO i v => exact isSettled_execResolveW_mono w i v j h
  | execRejectO i r => exact isSettled_execRejectW_mono w i r j h

/-- C2 counterexample: the forced abort-rejection performed by the chain
walk settles the underlying promise of the located node but leaves its
`_isSettled` flag false, because `_doAbort` invokes the raw `thisReject`
captured at line 31 and not the flag-setting wrapper of lines 41-44. -/
theorem forced_abort_leaves_flag_false :
    ((doAbortW ⟨[⟨0, false, none, .pending⟩], [], [], 0⟩ 0
        (some (.custom 5))).node 0).underlying = .rejected (some (.custom 5))
    ∧ ((doAbortW ⟨[⟨0, false, none, .pending⟩], [], [], 0⟩ 0
        (some (.custom 5))).node 0).isSettled = false := by decide

/-- C2 amended: the `_isSettled` flag is monotonic (false to true, never
back) across every operation of the library, and it is set exactly by
the resolve/reject wrappers the constructor hands to the executor;
the forced abort-rejection of the chain walk settles the underlying
promise while leaving every node's flag unchanged. -/
theorem settled_flag_monotone_amended :
    (∀ w ops j, (PWorld.node w j).isSettled = true →
      ((applyPOps w ops).node j).isSettled = true)
    ∧ (∀ (w : PWorld) i v, i < w.nodes.length →
      ((execResolveW w i v).node i).isSettled = true)
    ∧ (∀ (w : PWorld) i r, i < w.nodes.length →
      ((execRejectW w i r).node i).isSettled = true)
    ∧ (∀ w i r j,
      ((doAbortW w i r).node j).isSettled = (PWorld.node w j).isSettled) := by
  refine ⟨?_, ?_, ?_, isSettled_doAbortW⟩
  · intro w ops j h
    induction ops generalizing w with
    | nil => exact h
    | cons op rest ih => exact ih _ (isSettled_applyPOp_mono w op j h)
  · intro w i v h
    rw [execResolveW, node_setNode, if_pos ⟨rfl, h⟩]
  · intro w i r h
    rw [execRejectW, node_setNode, if_pos ⟨rfl, h⟩]

/-- Witness for the amended C2 theorem: a settled flag survives an
abort event, the executor-facing wrappers set the flag, and the chain
walk's forced rejection leaves flags untouched, all on a one-node
world. -/
theorem settled_flag_monotone_amended_witness :
    ((applyPOps ⟨[⟨0, true, none, .resolved 1⟩], [], [], 0⟩
      [.abortO 0 (some (.custom 2))]).node 0).isSettled = true
    ∧ ((execResolveW ⟨[⟨0, false, none, .pending⟩], [], [], 0⟩ 0 3).node
        0).isSettled = true
    ∧ ((execRejectW ⟨[⟨0, false, none, .pending⟩], [], [], 0⟩ 0
        (some (.custom 1))).node 0).isSettled = true
    ∧ ((doAbortW ⟨[⟨0, false, none, .pending⟩], [], [], 0⟩ 0
        (some (.custom 1))).node 0).isSettled
      = ((⟨[⟨0, false, none, .pending⟩], [], [], 0⟩ : PWorld).node 0).isSettled :=
  ⟨settled_flag_monotone_amended.1 _ _ 0 (by decide),
   settled_flag_monotone_amended.2.1 _ 0 3 (by decide),
   settled_flag_monotone_amended.2.2.1 _ 0 (some (.custom 1)) (by decide),
   settled_flag_monotone_amended.2.2.2 _ 0 (some (.custom 1)) 0⟩

/-! ## Idempotent wrap (C5) -/

/-- C5: `AbortablePromise.from` returns an argument that is already an
`AbortablePromise` by identity, leaving the world (hence the node's
parent, signal binding and settled state) untouched; likewise
`AbortSignalPlus.from` returns an `AbortSignalPlus` argument
unchanged. -/
theorem from_idempotent :
    (∀ (w : PWorld) (i : Nat) (sg : Option Nat),
      fromW w (.nodeP i) sg = (w, .nodeP i))
    ∧ (∀ (w : CWorld) (s : Nat), sigFromC w (.plusV s) = (w, .plusV s)) :=
  ⟨fun _ _ _ => rfl, fun _ _ => rfl⟩

/-! ## Constructing against a signal (C6) -/

theorem listeners_setNode (w : PWorld) (i : Nat) (f : PNode → PNode) :
    (w.setNode i f).listeners = w.listeners := rfl

theorem listeners_setSig (w : PWorld) (s : Nat) (c : PSig) :
    (w.setSig s c).listeners = w.listeners := rfl

theorem listeners_doAbortW (w : PWorld) (i : Nat) (r : Option Reason) :
    (doAbortW w i r).listeners = w.listeners := rfl

theorem nodesLength_setNode (w : PWorld) (i : Nat) (f : PNode → PNode) :
    (w.setNode i f).nodes.length = w.nodes.length := by
  show (w.nodes.set i _).length = w.nodes.length
  exact List.length_set w.nodes i _

theorem nodesLength_doAbortW (w : PWorld) (i : Nat) (r : Option Reason) :
    (doAbortW w i r).nodes.length = w.nodes.length :=
  nodesLength_setNode _ _ _

/-- Appending a fresh pending root at index `w.nodes.length`. -/
theorem node_append_self (w : PWorld) (nd : PNode) :
    ((⟨w.nodes ++ [nd], w.sigs, w.listeners, w.fresh⟩ : PWorld).node
      w.nodes.length) = nd := by
  show (w.nodes ++ [nd]).getD w.nodes.length defaultPNode = nd
  rw [List.getD_append_right _ _ _ _ (Nat.le_refl _), Nat.sub_self]
  rfl

theorem listenW_aborted (w : PWorld) (i s : Nat)
    (hab : (w.sig s).abortedB = true) :
    listenW w i s =
      doAbortW (w.setNode i (fun nd => { nd with signal := some s })) i
        ((w.sig s).reasonV) := by
  unfold listenW
  dsimp only
  rw [if_pos (show ((w.setNode i (fun nd =>
    { nd with signal := some s })).sig s).abortedB = true from hab)]
  rfl

theorem listenW_fresh (w : PWorld) (i s : Nat)
    (hab : (w.sig s).abortedB = false) :
    listenW w i s =
      { w.setNode i (fun nd => { nd with signal := some s }) with
          listeners := w.listeners ++ [(s, i)] } := by
  unfold listenW
  dsimp only
  rw [if_neg (show ¬ ((w.setNode i (fun nd =>
      { nd with signal := some s })).sig s).abortedB = true by
    rw [show ((w.setNode i (fun nd =>
      { nd with signal := some s })).sig s).abortedB = (w.sig s).abortedB
      from rfl, hab]
    exact Bool.false_ne_true)]
  rfl

theorem chainWalk_self (w : PWorld) (i : Nat) (hp : (w.node i).parent = i) :
    chainWalk w i = i := by
  unfold chainWalk
  simp [walkAux, hp]

theorem doAbortW_self_node (w : PWorld) (i : Nat) (r : Option Reason)
    (hp : (w.node i).parent = i) (hi : i < w.nodes.length) :
    (doAbortW w i r).node i
      = { w.node i with underlying := rejectP (w.node i).underlying r } := by
  rw [doAbortW, chainWalk_self w i hp, node_setNode, if_pos ⟨rfl, hi⟩]

/-- Firing a (previously unaborted, reasonless) signal with reason `r`
runs the pending abort listeners; when the only pending listener on `s`
is `(s, i)` and node `i` is a root, node `i` is rejected with `r`. -/
theorem fireSigW_rejects_listener (w : PWorld) (s i : Nat) (r : Reason)
    (hs : s < w.sigs.length)
    (hab : (w.sig s).abortedB = false) (hre : (w.sig s).reasonV = none)
    (hln : w.listeners.filter (fun p => p.1 == s) = [(s, i)])
    (hp : (w.node i).parent = i) (hi : i < w.nodes.length) :
    ((fireSigW w s r).node i).underlying
      = rejectP ((w.node i).underlying) (some r) := by
  have main : ∀ c : PSig, c.abortedB = true → c.reasonV = some r →
      ((runPListeners (w.setSig s c) s).node i).underlying
        = rejectP ((w.node i).underlying) (some r) := by
    intro c _ hcr
    unfold runPListeners
    dsimp only
    rw [listeners_setSig, hln]
    rw [List.foldl_cons, List.foldl_nil]
    dsimp only
    have hsig : (({ w.setSig s c with
        listeners := w.listeners.filter (fun p => !(p.1 == s)) } : PWorld).sig s)
        = c := by
      show (w.setSig s c).sig s = c
      rw [sig_setSig, if_pos ⟨rfl, hs⟩]
    rw [hsig, hcr]
    have hnode : ∀ j, (({ w.setSig s c with
        listeners := w.listeners.filter (fun p => !(p.1 == s)) } : PWorld).node j)
        = w.node j := fun j => rfl
    rw [doAbortW_self_node _ i (some r) (by rw [hnode]; exact hp)
      (by show i < w.nodes.length; exact hi), hnode]
  cases hc : w.sig s with
  | plus a rs =>
    have ha : a = false := by rw [hc] at hab; exact hab
    have hrs : rs = none := by rw [hc] at hre; exact hre
    unfold fireSigW
    rw [hc, ha]
    dsimp only
    exact main _ rfl rfl
  | nativeS a rs ownA ownR =>
    have ha : ownA = false ∧ a = false := by
      rw [hc] at hab
      exact Bool.or_eq_false_iff.mp hab
    have hore : ownR = none := by
      rw [hc] at hre
      cases ownR with
      | none => rfl
      | some r0 => exact absurd hre (by simp [PSig.reasonV])
    have hrs : rs = none := by
      rw [hc, hore] at hre
      exact hre
    unfold fireSigW
    rw [hc, ha.2]
    dsimp only
    exact main _ (by simp [PSig.abortedB]) (by rw [hore]; rfl)

/-- C6: constructing a node against an already-aborted signal rejects
the fresh root synchronously with the signal's current reason through
the chain walk; the executor still runs, and a resolve it performs later
does not change the settled outcome (it only flips the bookkeeping
flag); against a not-yet-aborted signal exactly one one-shot listener is
registered, and when the signal later fires with reason `r` that
listener rejects the node with `r`. -/
theorem construct_with_signal (w : PWorld) (s : Nat) (r : Reason) (v : Nat)
    (hs : s < w.sigs.length)
    (hln : ∀ p ∈ w.listeners, p.1 ≠ s) :
    ((w.sig s).abortedB = true → (w.sig s).reasonV = some r →
      (((constructW w (some s) []).1.node
          (constructW w (some s) []).2).underlying = .rejected (some r)
        ∧ ((constructW w (some s) [.resolveA v]).1.node
            (constructW w (some s) [.resolveA v]).2).underlying
            = .rejected (some r)
        ∧ ((constructW w (some s) [.resolveA v]).1.node
            (constructW w (some s) [.resolveA v]).2).isSettled = true))
    ∧ ((w.sig s).abortedB = false → (w.sig s).reasonV = none →
      ((constructW w (some s) []).1.listeners
          = w.listeners ++ [(s, w.nodes.length)]
        ∧ ((constructW w (some s) []).1.node w.nodes.length).signal = some s
        ∧ ((constructW w (some s) []).1.node w.nodes.length).underlying
            = .pending
        ∧ ((fireSigW (constructW w (some s) []).1 s r).node
            w.nodes.length).underlying = .rejected (some r))) := by
  have hC0 : (constructW w (some s) []).1
      = listenW ⟨w.nodes ++ [⟨w.nodes.length, false, none, .pending⟩],
          w.sigs, w.listeners, w.fresh⟩ w.nodes.length s := rfl
  have hlenapp : w.nodes.length <
      ((⟨w.nodes ++ [⟨w.nodes.length, false, none, .pending⟩], w.sigs,
        w.listeners, w.fresh⟩ : PWorld)).nodes.length := by
    simp
  have hw1node :
      (((⟨w.nodes ++ [⟨w.nodes.length, false, none, .pending⟩], w.sigs,
          w.listeners, w.fresh⟩ : PWorld)).setNode w.nodes.length
          (fun nd => { nd with signal := some s })).node w.nodes.length
        = ⟨w.nodes.length, false, some s, .pending⟩ := by
    rw [node_setNode, if_pos ⟨rfl, hlenapp⟩, node_append_self]
  have hparentOf : ∀ X : PWorld,
      X.node w.nodes.length = ⟨w.nodes.length, false, some s, .pending⟩ →
      (X.node w.nodes.length).parent = w.nodes.length := by
    intro X hX; rw [hX]
  constructor
  · intro hab hre
    have hab2 : ((⟨w.nodes ++ [⟨w.nodes.length, false, none, .pending⟩],
        w.sigs, w.listeners, w.fresh⟩ : PWorld).sig s).abortedB = true := hab
    have hre2 : ((⟨w.nodes ++ [⟨w.nodes.length, false, none, .pending⟩],
        w.sigs, w.listeners, w.fresh⟩ : PWorld).sig s).reasonV = some r := hre
    have hL : (constructW w (some s) []).1
        = doAbortW ((⟨w.nodes ++ [⟨w.nodes.length, false, none, .pending⟩],
            w.sigs, w.listeners, w.fresh⟩ : PWorld).setNode w.nodes.length
            (fun nd => { nd with signal := some s })) w.nodes.length
            (some r) := by
      rw [hC0, listenW_aborted _ _ _ hab2, hre2]
    have hilen : w.nodes.length < (constructW w (some s) []).1.nodes.length := by
      rw [hL, nodesLength_doAbortW, nodesLength_setNode]
      exact hlenapp
    have htgt : (constructW w (some s) []).1.node w.nodes.length
        = ⟨w.nodes.length, false, some s, .rejected (some r)⟩ := by
      rw [hL, doAbortW_self_node _ _ _ (hparentOf _ hw1node)
        (by rw [nodesLength_setNode]; exact hlenapp), hw1node]
      rfl
    refine ⟨?_, ?_, ?_⟩
    · show ((constructW w (some s) []).1.node w.nodes.length).underlying = _
      rw [htgt]
    · show ((execResolveW (constructW w (some s) []).1 w.nodes.length v).node
        w.nodes.length).underlying = _
      rw [execResolveW, node_setNode, if_pos ⟨rfl, hilen⟩, htgt]
    · show ((execResolveW (constructW w (some s) []).1 w.nodes.length v).node
        w.nodes.length).isSettled = true
      rw [execResolveW, node_setNode, if_pos ⟨rfl, hilen⟩]
  · intro hab hre
    have hab2 : ((⟨w.nodes ++ [⟨w.nodes.length, false, none, .pending⟩],
        w.sigs, w.listeners, w.fresh⟩ : PWorld).sig s).abortedB = false := hab
    have hL : (constructW w (some s) []).1
        = { (⟨w.nodes ++ [⟨w.nodes.length, false, none, .pending⟩],
            w.sigs, w.listeners, w.fresh⟩ : PWorld).setNode w.nodes.length
            (fun nd => { nd with signal := some s }) with
          listeners := w.listeners ++ [(s, w.nodes.length)] } := by
      rw [hC0, listenW_fresh _ _ _ hab2]
    have hnodefin : (constructW w (some s) []).1.node w.nodes.length
        = ⟨w.nodes.length, false, some s, .pending⟩ := by
      rw [hL]; exact hw1node
    have hfil : ((w.listeners ++ [(s, w.nodes.length)]).filter
        (fun p => p.1 == s)) = [(s, w.nodes.length)] := by
      rw [List.filter_append,
        List.filter_eq_nil_iff.mpr (fun p hp hbeq =>
          hln p hp (by simpa using hbeq))]
      simp
    refine ⟨by rw [hL], by rw [hnodefin], by rw [hnodefin], ?_⟩
    rw [fireSigW_rejects_listener ((constructW w (some s) []).1) s
        w.nodes.length r
        (by rw [hL]; exact hs)
        (by rw [hL]; exact hab)
        (by rw [hL]; exact hre)
        (by rw [hL]; exact hfil)
        (hparentOf _ hnodefin)
        (by
          rw [hL]
          simp [PWorld.setNode]),
      hnodefin]
    rfl

/-- Witness for C6: an empty world with one `AbortSignalPlus`, first
already aborted with a custom reason, then pristine. -/
theorem construct_with_signal_witness :
    ((constructW ⟨[], [.plus true (some (.custom 9))], [], 0⟩ (some 0)
        []).1.node 0).underlying = .rejected (some (.custom 9))
    ∧ ((constructW ⟨[], [.plus false none], [], 0⟩ (some 0) []).1.listeners
        = [(0, 0)]
      ∧ ((constructW ⟨[], [.plus false none], [], 0⟩ (some 0) []).1.node
          0).signal = some 0
      ∧ ((constructW ⟨[], [.plus false none], [], 0⟩ (some 0) []).1.node
          0).underlying = .pending
      ∧ ((fireSigW (constructW ⟨[], [.plus false none], [], 0⟩ (some 0) []).1
          0 (.custom 4)).node 0).underlying = .rejected (some (.custom 4))) :=
  ⟨((construct_with_signal ⟨[], [.plus true (some (.custom 9))], [], 0⟩ 0
      (.custom 9) 3 (by decide) (by decide)).1 (by decide) (by decide)).1,
   (construct_with_signal ⟨[], [.plus false none], [], 0⟩ 0 (.custom 4) 3
      (by decide) (by decide)).2 (by decide) (by decide)⟩

/-! ## `abort` and the bound signal (C8, C9) -/

theorem signal_doAbortW (w : PWorld) (i : Nat) (r : Option Reason) (j : Nat) :
    ((doAbortW w i r).node j).signal = (w.node j).signal := by
  rw [doAbortW, node_setNode]
  split
  · rename_i h
    rw [h.1]
  · rfl

theorem sig_doAbortW (w : PWorld) (i : Nat) (r : Option Reason) (s : Nat) :
    (doAbortW w i r).sig s = w.sig s := rfl

theorem sig_foldl_doAbort (l : List (Nat × Nat)) (w : PWorld) (s s2 : Nat) :
    ((l.foldl (fun acc p => doAbortW acc p.2 ((acc.sig s).reasonV)) w).sig s2)
      = w.sig s2 := by
  induction l generalizing w with
  | nil => rfl
  | cons p rest ih => rw [List.foldl_cons, ih, sig_doAbortW]

theorem sig_runPListeners (w : PWorld) (s s2 : Nat) :
    (runPListeners w s).sig s2 = w.sig s2 := by
  rw [runPListeners]
  exact sig_foldl_doAbort _ _ _ _

theorem listeners_foldl_doAbort (l : List (Nat × Nat)) (w : PWorld)
    (s : Nat) :
    ((l.foldl (fun acc p => doAbortW acc p.2 ((acc.sig s).reasonV)) w).listeners)
      = w.listeners := by
  induction l generalizing w with
  | nil => rfl
  | cons p rest ih => rw [List.foldl_cons, ih, listeners_doAbortW]

theorem listeners_runPListeners (w : PWorld) (s : Nat) :
    (runPListeners w s).listeners
      = w.listeners.filter (fun p => !(p.1 == s)) := by
  rw [runPListeners]
  exact listeners_foldl_doAbort _ _ _

/-- C8: `abort(reason)` marks the bound signal as aborted with the same
reason: an `AbortSignalPlus` (not yet aborted) through its controller's
`abort`, which fires the underlying native signal with that reason; a
foreign native signal (with no previously force-defined `reason`
property) by force-defining its `aborted` and `reason` own properties
and dispatching its abort event, which consumes the signal's pending
one-shot listeners; with no bound signal, only the chain-walk rejection
happens and the signal table and listeners are untouched. -/
theorem abort_marks_bound_signal (w : PWorld) (i s : Nat) (r : Reason)
    (hsig : (w.node i).signal = some s) (hslen : s < w.sigs.length) :
    (∀ rs, w.sig s = .plus false rs →
      ((nodeAbort w i (some r)).1.sig s = .plus true (some r)
        ∧ (nodeAbort w i (some r)).2 = false))
    ∧ (∀ a rs, w.sig s = .nativeS a rs false none →
      ((nodeAbort w i (some r)).1.sig s = .nativeS a rs true (some r)
        ∧ (nodeAbort w i (some r)).2 = false
        ∧ (nodeAbort w i (some r)).1.listeners
            = w.listeners.filter (fun p => !(p.1 == s))))
    ∧ (∀ (w2 : PWorld) (i2 : Nat) (r2 : Reason), (w2.node i2).signal = none →
      ((nodeAbort w2 i2 (some r2)).1.sigs = w2.sigs
        ∧ (nodeAbort w2 i2 (some r2)).1.listeners = w2.listeners
        ∧ (nodeAbort w2 i2 (some r2)).2 = false)) := by
  have hsig1 : ((doAbortW w i (some r)).node i).signal = some s := by
    rw [signal_doAbortW]; exact hsig
  refine ⟨?_, ?_, ?_⟩
  · intro rs hplus
    have hsigs : (doAbortW w i (some r)).sig s = PSig.plus false rs := hplus
    unfold nodeAbort
    dsimp only
    rw [hsig1]
    dsimp only
    rw [hsigs]
    dsimp only
    rw [if_neg (by exact Bool.false_ne_true)]
    refine ⟨?_, rfl⟩
    rw [sig_runPListeners, sig_setSig,
      if_pos ⟨rfl, show s < (doAbortW w i (some r)).sigs.length from hslen⟩]
  · intro a rs hnat
    have hsigs : (doAbortW w i (some r)).sig s = PSig.nativeS a rs false none :=
      hnat
    unfold nodeAbort
    dsimp only
    rw [hsig1]
    dsimp only
    rw [hsigs]
    dsimp only
    rw [show defineReasonProp none r = some (some r) from rfl]
    dsimp only
    refine ⟨?_, rfl, ?_⟩
    · rw [sig_runPListeners, sig_setSig,
        if_pos ⟨rfl, show s < (doAbortW w i (some r)).sigs.length from hslen⟩]
    · rw [listeners_runPListeners, listeners_setSig, listeners_doAbortW]
  · intro w2 i2 r2 hnone
    have hsig2 : ((doAbortW w2 i2 (some r2)).node i2).signal = none := by
      rw [signal_doAbortW]; exact hnone
    unfold nodeAbort
    dsimp only
    rw [hsig2]
    dsimp only
    exact ⟨rfl, rfl, rfl⟩

/-- Witness for C8 on one-node worlds bound to an `AbortSignalPlus`, a
foreign native signal, and no signal. -/
theorem abort_marks_bound_signal_witness :
    ((nodeAbort ⟨[⟨0, false, some 0, .pending⟩], [.plus false none], [(0, 0)],
        0⟩ 0 (some (.custom 1))).1.sig 0 = .plus true (some (.custom 1))
      ∧ (nodeAbort ⟨[⟨0, false, some 0, .pending⟩], [.plus false none],
          [(0, 0)], 0⟩ 0 (some (.custom 1))).2 = false)
    ∧ ((nodeAbort ⟨[⟨0, false, some 0, .pending⟩],
          [.nativeS false none false none], [(0, 0)], 0⟩ 0
          (some (.custom 1))).1.sig 0
        = .nativeS false none true (some (.custom 1))
      ∧ (nodeAbort ⟨[⟨0, false, some 0, .pending⟩],
          [.nativeS false none false none], [(0, 0)], 0⟩ 0
          (some (.custom 1))).2 = false
      ∧ (nodeAbort ⟨[⟨0, false, some 0, .pending⟩],
          [.nativeS false none false none], [(0, 0)], 0⟩ 0
          (some (.custom 1))).1.listeners = [])
    ∧ ((nodeAbort ⟨[⟨0, false, none, .pending⟩], [], [], 0⟩ 0
        (some (.custom 2))).1.sigs = []
      ∧ (nodeAbort ⟨[⟨0, false, none, .pending⟩], [], [], 0⟩ 0
          (some (.custom 2))).1.listeners = []
      ∧ (nodeAbort ⟨[⟨0, false, none, .pending⟩], [], [], 0⟩ 0
          (some (.custom 2))).2 = false) :=
  ⟨(abort_marks_bound_signal _ 0 0 (.custom 1) (by decide) (by decide)).1
      none rfl,
   (abort_marks_bound_signal _ 0 0 (.custom 1) (by decide) (by decide)).2.1
      false none rfl,
   (abort_marks_bound_signal ⟨[⟨0, false, some 0, .pending⟩],
      [.plus false none], [(0, 0)], 0⟩ 0 0 (.custom 1) (by decide)
      (by decide)).2.2 ⟨[⟨0, false, none, .pending⟩], [], [], 0⟩ 0
      (.custom 2) rfl⟩

/-- C9 is wrong about the code: on a node bound to a foreign native
signal, a second `abort` with a different reason throws a TypeError
synchronously, because `Object.defineProperty(signal, "reason", ...)`
redefines the non-configurable, non-writable own property with a
different value; the default-reason path throws too, since each call
constructs a distinct `AbortError`.  The claim's safety property is the
stated intent (the spec promises no synchronous exception and tests only
the single-abort path), so this is a code bug. -/
theorem abort_native_twice_throws :
    (nodeAbort (nodeAbort ⟨[⟨0, false, some 0, .pending⟩],
        [.nativeS false none false none], [(0, 0)], 0⟩ 0
        (some (.custom 1))).1 0 (some (.custom 2))).2 = true
    ∧ (nodeAbort (nodeAbort ⟨[⟨0, false, some 0, .pending⟩],
        [.nativeS false none false none], [(0, 0)], 0⟩ 0 none).1 0 none).2
      = true := by decide

/-! ## `listen` rebinding (C10) -/

/-- C10: a second `listen` replaces the stored signal binding but does
not unregister the listener registered on the first signal, so when the
first signal later fires while the node is pending, the node is still
rejected with the first signal's reason even though the second signal is
the current binding. -/
theorem listen_rebinding_keeps_old_listener (w : PWorld) (i s1 s2 : Nat)
    (r : Reason)
    (hi : i < w.nodes.length)
    (hnode : w.node i = ⟨i, false, none, .pending⟩)
    (hs1 : s1 < w.sigs.length)
    (hs12 : s2 ≠ s1)
    (hab1 : (w.sig s1).abortedB = false) (hre1 : (w.sig s1).reasonV = none)
    (hab2 : (w.sig s2).abortedB = false)
    (hln : ∀ p ∈ w.listeners, p.1 ≠ s1) :
    ((listenW (listenW w i s1) i s2).node i).signal = some s2
    ∧ (listenW (listenW w i s1) i s2).listeners
        = w.listeners ++ [(s1, i), (s2, i)]
    ∧ ((fireSigW (listenW (listenW w i s1) i s2) s1 r).node i).underlying
        = .rejected (some r) := by
  have hA : listenW w i s1
      = { w.setNode i (fun nd => { nd with signal := some s1 }) with
          listeners := w.listeners ++ [(s1, i)] } := listenW_fresh w i s1 hab1
  have hAnode : (listenW w i s1).node i = ⟨i, false, some s1, .pending⟩ := by
    rw [hA]
    show (w.setNode i (fun nd => { nd with signal := some s1 })).node i = _
    rw [node_setNode, if_pos ⟨rfl, hi⟩, hnode]
  have hlenA : i < (listenW w i s1).nodes.length := by
    rw [hA]
    show i < (w.setNode i (fun nd => { nd with signal := some s1 })).nodes.length
    rw [nodesLength_setNode]
    exact hi
  have hB : listenW (listenW w i s1) i s2
      = { (listenW w i s1).setNode i (fun nd => { nd with signal := some s2 })
          with listeners := (listenW w i s1).listeners ++ [(s2, i)] } :=
    listenW_fresh _ i s2 (by rw [hA]; exact hab2)
  have hBnode : ((listenW (listenW w i s1) i s2).node i)
      = ⟨i, false, some s2, .pending⟩ := by
    rw [hB]
    show ((listenW w i s1).setNode i
      (fun nd => { nd with signal := some s2 })).node i = _
    rw [node_setNode, if_pos ⟨rfl, hlenA⟩, hAnode]
  have hBlist : (listenW (listenW w i s1) i s2).listeners
      = w.listeners ++ [(s1, i), (s2, i)] := by
    rw [hB]
    show (listenW w i s1).listeners ++ [(s2, i)] = _
    rw [hA]
    show (w.listeners ++ [(s1, i)]) ++ [(s2, i)] = _
    rw [List.append_assoc]
    rfl
  refine ⟨by rw [hBnode], hBlist, ?_⟩
  rw [fireSigW_rejects_listener _ s1 i r
      (by rw [hB, hA]; exact hs1)
      (by rw [hB, hA]; exact hab1)
      (by rw [hB, hA]; exact hre1)
      (by
        rw [show (listenW (listenW w i s1) i s2).listeners
          = w.listeners ++ [(s1, i), (s2, i)] from hBlist]
        rw [List.filter_append,
          List.filter_eq_nil_iff.mpr (fun p hp hbeq =>
            hln p hp (by simpa using hbeq))]
        simp [hs12])
      (by rw [hBnode])
      (by
        rw [hB]
        show i < ((listenW w i s1).setNode i
          (fun nd => { nd with signal := some s2 })).nodes.length
        rw [nodesLength_setNode]
        exact hlenA),
    hBnode]
  rfl

/-- Witness for C10 on a one-node, two-signal world. -/
theorem listen_rebinding_keeps_old_listener_witness :
    ((listenW (listenW ⟨[⟨0, false, none, .pending⟩],
        [.plus false none, .plus false none], [], 0⟩ 0 0) 0 1).node 0).signal
      = some 1
    ∧ (listenW (listenW ⟨[⟨0, false, none, .pending⟩],
        [.plus false none, .plus false none], [], 0⟩ 0 0) 0 1).listeners
      = [] ++ [(0, 0), (1, 0)]
    ∧ ((fireSigW (listenW (listenW ⟨[⟨0, false, none, .pending⟩],
        [.plus false none, .plus false none], [], 0⟩ 0 0) 0 1) 0
        (.custom 3)).node 0).underlying = .rejected (some (.custom 3)) :=
  listen_rebinding_keeps_old_listener _ 0 0 1 (.custom 3) (by decide)
    (by decide) (by decide) (by decide) (by decide) (by decide) (by decide)
    (by decide)

/-! ## Signal composition: reason translation and short-circuit (C3, C4) -/

theorem csig_setSig (w : CWorld) (s : Nat) (c : CSig) (s2 : Nat) :
    (w.setSig s c).sig s2 =
      if s2 = s ∧ s < w.sigs.length then c else w.sig s2 := by
  by_cases hlen : s < w.sigs.length
  · by_cases hss : s2 = s
    · subst hss
      rw [if_pos ⟨rfl, hlen⟩]
      exact getD_set_self _ _ _ _ hlen
    · rw [if_neg (fun hc => hss hc.1)]
      exact getD_set_ne _ _ _ _ _ hss
  · rw [if_neg (fun hc => hlen hc.2)]
    show (w.sigs.set s _).getD s2 defaultCSig = w.sig s2
    rw [List.set_eq_of_length_le (Nat.le_of_not_lt hlen)]
    rfl

theorem clisteners_setSig (w : CWorld) (s : Nat) (c : CSig) :
    (w.setSig s c).listeners = w.listeners := rfl

theorem csigsLength_setSig (w : CWorld) (s : Nat) (c : CSig) :
    (w.setSig s c).sigs.length = w.sigs.length := by
  show (w.sigs.set s c).length = w.sigs.length
  exact List.length_set w.sigs s c

theorem listenC_aborted (w : CWorld) (tgt src : Nat)
    (hab : (w.sig src).aborted = true) :
    listenC w tgt src =
      (fireC ((if isTimeoutErrorO (w.sig src).reason
            then { w with fresh := w.fresh + 1 } else w).sigs.length + 1)
          (if isTimeoutErrorO (w.sig src).reason
            then { w with fresh := w.fresh + 1 } else w) tgt
          (if isTimeoutErrorO (w.sig src).reason
            then some (.timeoutError w.fresh) else (w.sig src).reason),
        true) := by
  unfold listenC
  dsimp only
  rw [if_pos hab]

theorem listenC_not_aborted (w : CWorld) (tgt src : Nat)
    (hab : (w.sig src).aborted = false) :
    listenC w tgt src
      = ({ w with listeners := w.listeners ++ [(src, tgt)] }, false) := by
  unfold listenC
  dsimp only
  rw [if_neg (by rw [hab]; exact Bool.false_ne_true)]

/-- Firing an unaborted signal that has no pending listeners: the signal
is set aborted with the given reason and nothing else happens. -/
theorem fireC_no_listeners (fuel : Nat) (w : CWorld) (s : Nat) (r : Reason)
    (hab : (w.sig s).aborted = false)
    (hl : w.listeners.filter (fun p => p.1 == s) = []) :
    fireC (fuel + 1) w s (some r)
      = { w.setSig s ⟨true, some r⟩ with
          listeners := w.listeners.filter (fun p => !(p.1 == s)) } := by
  rw [fireC]
  rw [show ctrlAbortReasonC w (some r) = (r, w) from rfl]
  dsimp only
  rw [if_neg (by rw [hab]; exact Bool.false_ne_true)]
  rw [show (w.setSig s ⟨true, some r⟩).listeners = w.listeners from rfl, hl]
  rw [List.foldl_nil]

/-- Firing an unaborted signal whose only pending listener is the
one-shot `(s, tgt)` registered by `_listen`: the listener runs with the
source's reason as read at fire time, re-synthesizing a fresh
`TimeoutError` when that reason is one and passing it through unchanged
otherwise, and aborts the (previously unaborted) target controller with
the translated reason. -/
theorem fireC_single_listener (fuel : Nat) (w : CWorld) (s tgt : Nat)
    (r : Reason)
    (hslen : s < w.sigs.length) (htlen : tgt < w.sigs.length) (hts : tgt ≠ s)
    (hsab : (w.sig s).aborted = false) (htab : (w.sig tgt).aborted = false)
    (hfil : w.listeners.filter (fun p => p.1 == s) = [(s, tgt)])
    (htfil : ((w.listeners.filter (fun p => !(p.1 == s))).filter
      (fun p => p.1 == tgt)) = []) :
    ((fireC (fuel + 2) w s (some r)).sig tgt).aborted = true
    ∧ ((fireC (fuel + 2) w s (some r)).sig tgt).reason
        = some (if isTimeoutError r then .timeoutError w.fresh else r) := by
  rw [show (fuel + 2) = (fuel + 1) + 1 from rfl, fireC]
  rw [show ctrlAbortReasonC w (some r) = (r, w) from rfl]
  dsimp only
  rw [if_neg (by rw [hsab]; exact Bool.false_ne_true)]
  rw [show (w.setSig s ⟨true, some r⟩).listeners = w.listeners from rfl, hfil]
  rw [List.foldl_cons, List.foldl_nil]
  dsimp only
  have hsig_s : (({ w.setSig s ⟨true, some r⟩ with
      listeners := w.listeners.filter (fun p => !(p.1 == s)) } : CWorld).sig s)
      = ⟨true, some r⟩ := by
    show (w.setSig s ⟨true, some r⟩).sig s = _
    rw [csig_setSig, if_pos ⟨rfl, hslen⟩]
  rw [hsig_s]
  by_cases hto : isTimeoutError r
  · rw [show isTimeoutErrorO (some r) = isTimeoutError r from rfl, hto]
    dsimp only
    rw [if_pos rfl, if_pos rfl]
    rw [fireC_no_listeners fuel _ tgt (.timeoutError
        (({ w.setSig s ⟨true, some r⟩ with
          listeners := w.listeners.filter (fun p => !(p.1 == s)) } :
            CWorld).fresh))
      (by
        show ((w.setSig s ⟨true, some r⟩).sig tgt).aborted = false
        rw [csig_setSig, if_neg (fun hc => hts hc.1)]
        exact htab)
      (by exact htfil)]
    constructor
    · simp only [CWorld.sig, CWorld.setSig]
      rw [getD_set_self _ _ _ _ (by simp only [List.length_set]; exact htlen)]
    · simp only [CWorld.sig, CWorld.setSig]
      rw [getD_set_self _ _ _ _ (by simp only [List.length_set]; exact htlen)]
      rfl
  · rw [show isTimeoutErrorO (some r) = isTimeoutError r from rfl,
      Bool.eq_false_iff.mpr hto]
    dsimp only
    rw [if_neg Bool.false_ne_true, if_neg Bool.false_ne_true]
    rw [fireC_no_listeners fuel _ tgt r
      (by
        show ((w.setSig s ⟨true, some r⟩).sig tgt).aborted = false
        rw [csig_setSig, if_neg (fun hc => hts hc.1)]
        exact htab)
      (by exact htfil)]
    constructor
    · simp only [CWorld.sig, CWorld.setSig]
      rw [getD_set_self _ _ _ _ (by simp only [List.length_set]; exact htlen)]
    · simp only [CWorld.sig, CWorld.setSig]
      rw [getD_set_self _ _ _ _ (by simp only [List.length_set]; exact htlen)]
      rfl

/-- C3: wiring a target `AbortSignalPlus` to a source signal through
`_listen` (the worker of `one` and `any`): if the source is observed
already aborted, the target's controller is aborted immediately;
otherwise a one-shot listener is registered and aborts the target when
the source fires.  In both cases the reason is a freshly constructed
`TimeoutError` (built from the current identity counter, hence distinct
from the source's own error) when the source's reason satisfies the
timeout-error predicate, and the source's reason passed through
unchanged otherwise. -/
theorem listen_translates_reason (w : CWorld) (tgt src : Nat) (r : Reason)
    (hts : tgt ≠ src)
    (htlen : tgt < w.sigs.length) (hslen : src < w.sigs.length)
    (htab : (w.sig tgt).aborted = false)
    (hl : w.listeners = []) :
    ((w.sig src).aborted = true → (w.sig src).reason = some r →
      (((listenC w tgt src).1.sig tgt).aborted = true
        ∧ ((listenC w tgt src).1.sig tgt).reason
            = some (if isTimeoutError r then .timeoutError w.fresh else r)
        ∧ (∀ k, r = .timeoutError k → k ≠ w.fresh →
            ((listenC w tgt src).1.sig tgt).reason ≠ some r)))
    ∧ ((w.sig src).aborted = false →
      ((listenC w tgt src).1.listeners = [(src, tgt)]
        ∧ (listenC w tgt src).2 = false
        ∧ ((extFire (listenC w tgt src).1 src r).sig tgt).aborted = true
        ∧ ((extFire (listenC w tgt src).1 src r).sig tgt).reason
            = some (if isTimeoutError r then .timeoutError w.fresh else r))) := by
  constructor
  · intro hsab hsre
    have hres : ((listenC w tgt src).1.sig tgt)
        = ⟨true, some (if isTimeoutError r then .timeoutError w.fresh else r)⟩ := by
      rw [listenC_aborted w tgt src hsab, hsre,
        show isTimeoutErrorO (some r) = isTimeoutError r from rfl]
      by_cases hto : isTimeoutError r
      · rw [hto]
        rw [if_pos (show (true : Bool) = true from rfl),
          if_pos (show (true : Bool) = true from rfl),
          if_pos (show (true : Bool) = true from rfl)]
        rw [fireC_no_listeners _ _ tgt _ (by exact htab)
          (by
            show List.filter (fun p => p.1 == tgt) w.listeners = []
            rw [hl]
            rfl)]
        simp only [CWorld.sig, CWorld.setSig]
        rw [getD_set_self _ _ _ _ (by exact htlen)]
      · rw [Bool.eq_false_iff.mpr hto]
        rw [if_neg (show ¬ (false : Bool) = true from Bool.false_ne_true),
          if_neg (show ¬ (false : Bool) = true from Bool.false_ne_true),
          if_neg (show ¬ (false : Bool) = true from Bool.false_ne_true)]
        rw [fireC_no_listeners _ _ tgt _ (by exact htab)
          (by
            show List.filter (fun p => p.1 == tgt) w.listeners = []
            rw [hl]
            rfl)]
        simp only [CWorld.sig, CWorld.setSig]
        rw [getD_set_self _ _ _ _ (by exact htlen)]
    refine ⟨by rw [hres], by rw [hres], ?_⟩
    intro k hk hkf heq
    rw [hres, hk] at heq
    simp [isTimeoutError] at heq
    exact hkf heq.symm
  · intro hsab
    have hreg := listenC_not_aborted w tgt src hsab
    have hw2 : (listenC w tgt src).1
        = { w with listeners := w.listeners ++ [(src, tgt)] } := by rw [hreg]
    have hfire := fireC_single_listener (w.sigs.length - 1)
      ({ w with listeners := w.listeners ++ [(src, tgt)] }) src tgt r
      (by exact hslen) (by exact htlen) hts (by exact hsab) (by exact htab)
      (by
        show (w.listeners ++ [(src, tgt)]).filter (fun p => p.1 == src)
          = [(src, tgt)]
        rw [hl]
        simp)
      (by
        show ((w.listeners ++ [(src, tgt)]).filter
          (fun p => !(p.1 == src))).filter (fun p => p.1 == tgt) = []
        rw [hl]
        simp)
    have hfuel : ({ w with listeners := w.listeners ++ [(src, tgt)] } :
        CWorld).sigs.length + 1 = (w.sigs.length - 1) + 2 := by
      simp only []
      omega
    refine ⟨?_, by rw [hreg], ?_, ?_⟩
    · rw [hw2]
      show w.listeners ++ [(src, tgt)] = _
      rw [hl]
      rfl
    · rw [hw2, extFire, hfuel]
      exact hfire.1
    · rw [hw2, extFire, hfuel]
      exact hfire.2

/-- Witness for C3 on two-signal worlds, with a TimeoutError reason in
the immediate branch and a custom reason in the deferred branch. -/
theorem listen_translates_reason_witness :
    (((listenC ⟨[⟨false, none⟩, ⟨true, some (.timeoutError 0)⟩], [], 1⟩ 0
        1).1.sig 0).aborted = true
      ∧ ((listenC ⟨[⟨false, none⟩, ⟨true, some (.timeoutError 0)⟩], [], 1⟩ 0
          1).1.sig 0).reason = some (.timeoutError 1)
      ∧ ((listenC ⟨[⟨false, none⟩, ⟨true, some (.timeoutError 0)⟩], [], 1⟩ 0
          1).1.sig 0).reason ≠ some (.timeoutError 0))
    ∧ ((listenC ⟨[⟨false, none⟩, ⟨false, none⟩], [], 1⟩ 0 1).1.listeners
        = [(1, 0)]
      ∧ ((extFire (listenC ⟨[⟨false, none⟩, ⟨false, none⟩], [], 1⟩ 0 1).1 1
          (.custom 8)).sig 0).reason = some (.custom 8)) := by
  have h1 := (listen_translates_reason
    ⟨[⟨false, none⟩, ⟨true, some (.timeoutError 0)⟩], [], 1⟩ 0 1
    (.timeoutError 0) (by decide) (by decide) (by decide) (by decide)
    rfl).1 (by decide) (by decide)
  have h2 := (listen_translates_reason
    ⟨[⟨false, none⟩, ⟨false, none⟩], [], 1⟩ 0 1 (.custom 8) (by decide)
    (by decide) (by decide) (by decide) rfl).2 (by decide)
  exact ⟨⟨h1.1, h1.2.1, h1.2.2 0 rfl (by decide)⟩, ⟨h2.1, h2.2.2.2⟩⟩

/-- The already-aborted branch of `_listen`, in full: the target is
aborted at once with the translated reason, no listener is registered
(pending listeners are untouched), no other signal changes, and the
caller is told to stop. -/
theorem listenC_aborted_effects (w : CWorld) (tgt src : Nat) (r : Reason)
    (htlen : tgt < w.sigs.length)
    (htab : (w.sig tgt).aborted = false)
    (hsab : (w.sig src).aborted = true) (hsre : (w.sig src).reason = some r)
    (hlt : ∀ p ∈ w.listeners, p.1 ≠ tgt) :
    ((listenC w tgt src).1.sig tgt)
        = ⟨true, some (if isTimeoutError r then .timeoutError w.fresh else r)⟩
    ∧ (listenC w tgt src).1.listeners = w.listeners
    ∧ (∀ x, x ≠ tgt → (listenC w tgt src).1.sig x = w.sig x)
    ∧ (listenC w tgt src).2 = true := by
  have hfil : List.filter (fun p => p.1 == tgt) w.listeners = [] :=
    List.filter_eq_nil_iff.mpr (fun p hp hbeq => hlt p hp (by simpa using hbeq))
  rw [listenC_aborted w tgt src hsab, hsre,
    show isTimeoutErrorO (some r) = isTimeoutError r from rfl]
  by_cases hto : isTimeoutError r
  · rw [hto]
    rw [if_pos (show (true : Bool) = true from rfl),
      if_pos (show (true : Bool) = true from rfl),
      if_pos (show (true : Bool) = true from rfl)]
    rw [fireC_no_listeners _ _ tgt _ (by exact htab) (by exact hfil)]
    refine ⟨?_, ?_, ?_, rfl⟩
    · simp only [CWorld.sig, CWorld.setSig]
      rw [getD_set_self _ _ _ _ (by exact htlen)]
    · show List.filter (fun p => !(p.1 == tgt)) w.listeners = w.listeners
      exact List.filter_eq_self.mpr (fun p hp => by simpa using hlt p hp)
    · intro x hx
      show ((({ w with fresh := w.fresh + 1 } : CWorld).setSig tgt
        ⟨true, some (.timeoutError w.fresh)⟩).sig x) = w.sig x
      rw [csig_setSig, if_neg (fun hc => hx hc.1)]
      rfl
  · rw [Bool.eq_false_iff.mpr hto]
    rw [if_neg (show ¬ (false : Bool) = true from Bool.false_ne_true),
      if_neg (show ¬ (false : Bool) = true from Bool.false_ne_true),
      if_neg (show ¬ (false : Bool) = true from Bool.false_ne_true)]
    rw [fireC_no_listeners _ _ tgt _ (by exact htab) (by exact hfil)]
    refine ⟨?_, ?_, ?_, rfl⟩
    · simp only [CWorld.sig, CWorld.setSig]
      rw [getD_set_self _ _ _ _ (by exact htlen)]
    · show List.filter (fun p => !(p.1 == tgt)) w.listeners = w.listeners
      exact List.filter_eq_self.mpr (fun p hp => by simpa using hlt p hp)
    · intro x hx
      show ((w.setSig tgt ⟨true, some r⟩).sig x) = w.sig x
      rw [csig_setSig, if_neg (fun hc => hx hc.1)]

/-- C4: `any` iterates the sources once in order; when it reaches the
first already-aborted source (after `pre`, all unaborted), it aborts the
target's controller immediately with that source's translated reason,
registers no listener on that source nor on any source after it, while
each source visited before got exactly one one-shot listener; no other
signal is touched. -/
theorem any_short_circuit (w : CWorld) (tgt : Nat) (pre post : List Nat)
    (s : Nat) (r : Reason)
    (htlen : tgt < w.sigs.length)
    (htab : (w.sig tgt).aborted = false)
    (hsab : (w.sig s).aborted = true) (hsre : (w.sig s).reason = some r)
    (hpre : ∀ x ∈ pre, (w.sig x).aborted = false)
    (hpt : ∀ x ∈ pre, x ≠ tgt)
    (hlt : ∀ p ∈ w.listeners, p.1 ≠ tgt) :
    ((anyC w tgt (pre ++ s :: post)).sig tgt).aborted = true
    ∧ ((anyC w tgt (pre ++ s :: post)).sig tgt).reason
        = some (if isTimeoutError r then .timeoutError w.fresh else r)
    ∧ (anyC w tgt (pre ++ s :: post)).listeners
        = w.listeners ++ pre.map (fun x => (x, tgt))
    ∧ (∀ x, x ≠ tgt → (anyC w tgt (pre ++ s :: post)).sig x = w.sig x) := by
  induction pre generalizing w with
  | nil =>
    rw [List.nil_append]
    have hstep := listenC_aborted_effects w tgt s r htlen htab hsab hsre hlt
    rw [anyC]
    rw [hstep.2.2.2, if_pos (show (true : Bool) = true from rfl)]
    refine ⟨by rw [hstep.1], by rw [hstep.1], ?_, fun x hx => hstep.2.2.1 x hx⟩
    rw [hstep.2.1]
    simp
  | cons x pre' ih =>
    rw [List.cons_append, anyC]
    rw [listenC_not_aborted w tgt x (hpre x (List.mem_cons_self x _))]
    dsimp only
    rw [if_neg (show ¬ (false : Bool) = true from Bool.false_ne_true)]
    have hlt2 : ∀ p ∈ w.listeners ++ [(x, tgt)], p.1 ≠ tgt := by
      intro p hp
      rcases List.mem_append.mp hp with hp1 | hp2
      · exact hlt p hp1
      · have : p = (x, tgt) := by simpa using hp2
        rw [this]
        exact hpt x (List.mem_cons_self x _)
    have ihw := ih ({ w with listeners := w.listeners ++ [(x, tgt)] })
      (by exact htlen) (by exact htab) (by exact hsab) (by exact hsre)
      (fun y hy => hpre y (List.mem_cons_of_mem x hy))
      (fun y hy => hpt y (List.mem_cons_of_mem x hy))
      (by exact hlt2)
    refine ⟨ihw.1, ihw.2.1, ?_, fun y hy => (ihw.2.2.2 y hy).trans rfl⟩
    rw [ihw.2.2.1]
    show (w.listeners ++ [(x, tgt)]) ++ pre'.map (fun y => (y, tgt)) = _
    rw [List.append_assoc]
    rfl

/-- Witness for C4: a four-signal world where the combined signal 0
listens to sources 1 (pending), 2 (already aborted with a custom
reason) and 3 (never reached). -/
theorem any_short_circuit_witness :
    ((anyC ⟨[⟨false, none⟩, ⟨false, none⟩, ⟨true, some (.custom 2)⟩,
        ⟨false, none⟩], [], 0⟩ 0 [1, 2, 3]).sig 0).aborted = true
    ∧ ((anyC ⟨[⟨false, none⟩, ⟨false, none⟩, ⟨true, some (.custom 2)⟩,
        ⟨false, none⟩], [], 0⟩ 0 [1, 2, 3]).sig 0).reason = some (.custom 2)
    ∧ (anyC ⟨[⟨false, none⟩, ⟨false, none⟩, ⟨true, some (.custom 2)⟩,
        ⟨false, none⟩], [], 0⟩ 0 [1, 2, 3]).listeners = [(1, 0)]
    ∧ (∀ x, x ≠ 0 →
        (anyC ⟨[⟨false, none⟩, ⟨false, none⟩, ⟨true, some (.custom 2)⟩,
          ⟨false, none⟩], [], 0⟩ 0 [1, 2, 3]).sig x
        = (⟨[⟨false, none⟩, ⟨false, none⟩, ⟨true, some (.custom 2)⟩,
            ⟨false, none⟩], [], 0⟩ : CWorld).sig x) :=
  any_short_circuit ⟨[⟨false, none⟩, ⟨false, none⟩, ⟨true, some (.custom 2)⟩,
      ⟨false, none⟩], [], 0⟩ 0 [1] [3] 2 (.custom 2) (by decide) (by decide)
    (by decide) (by decide) (by decide) (by decide) (by decide)

/-! ## Timers: at most one armed, replace, clear on abort (C7) -/

theorem clearT_length (ts : List TimerEntry) (oh : Option Nat) :
    (clearT ts oh).length = ts.length := by
  cases oh with
  | none => rfl
  | some h => exact List.length_set ts h _

theorem clearT_getD (ts : List TimerEntry) (h0 h : Nat) :
    (clearT ts (some h0)).getD h ⟨0, false⟩ =
      if h = h0 ∧ h0 < ts.length
        then { ts.getD h0 ⟨0, false⟩ with active := false }
        else ts.getD h ⟨0, false⟩ := by
  show (ts.set h0 _).getD h ⟨0, false⟩ = _
  by_cases hlen : h0 < ts.length
  · by_cases hh : h = h0
    · subst hh
      rw [if_pos ⟨rfl, hlen⟩]
      exact getD_set_self _ _ _ _ hlen
    · rw [if_neg (fun hc => hh hc.1)]
      exact getD_set_ne _ _ _ _ _ hh
  · rw [if_neg (fun hc => hlen hc.2),
      List.set_eq_of_length_le (Nat.le_of_not_lt hlen)]

/-- Any entry still armed after a `clearTimeout` was armed before, and
is not the cleared handle. -/
theorem clearT_active (ts : List TimerEntry) (oh : Option Nat) (h : Nat)
    (hlen : h < (clearT ts oh).length)
    (ha : ((clearT ts oh).getD h ⟨0, false⟩).active = true) :
    (ts.getD h ⟨0, false⟩).active = true ∧ oh ≠ some h := by
  cases oh with
  | none => exact ⟨ha, fun hc => Option.noConfusion hc⟩
  | some h0 =>
    rw [clearT_getD] at ha
    rw [clearT_length] at hlen
    by_cases hc : h = h0 ∧ h0 < ts.length
    · rw [if_pos hc] at ha
      exact absurd ha (by simp)
    · rw [if_neg hc] at ha
      refine ⟨ha, fun heq => ?_⟩
      have hh0 : h0 = h := by injection heq
      exact hc ⟨hh0.symm, hh0 ▸ hlen⟩

theorem dueTimerT_some (w : TSigW) (h : Nat) (hd : dueTimerT w = some h) :
    h < w.timers.length ∧ (w.timers.getD h ⟨0, false⟩).active = true := by
  unfold dueTimerT at hd
  have hmem := List.mem_of_find?_eq_some hd
  have hpred := List.find?_some hd
  constructor
  · simpa using hmem
  · have hp2 : (w.timers.getD h ⟨0, false⟩).active = true
        ∧ (w.timers.getD h ⟨0, false⟩).deadline ≤ w.now := by
      simpa using hpred
    exact hp2.1

theorem fireTimerT_timerH (w : TSigW) (h0 : Nat) :
    (fireTimerT w h0).timerH = none := rfl

theorem fireTimerT_timers (w : TSigW) (h0 : Nat) :
    (fireTimerT w h0).timers = clearT w.timers (some h0)
    ∨ (fireTimerT w h0).timers
        = clearT (clearT w.timers (some h0)) w.timerH := by
  unfold fireTimerT abortSigT
  dsimp only
  split
  · exact Or.inl rfl
  · split
    · exact Or.inl rfl
    · exact Or.inr rfl

theorem invT_fireTimerT (w : TSigW) (h0 : Nat) (hI : InvT w)
    (hlen0 : h0 < w.timers.length)
    (hact0 : (w.timers.getD h0 ⟨0, false⟩).active = true) :
    InvT (fireTimerT w h0) := by
  obtain ⟨h1, h2, h3⟩ := hI
  have hTH : w.timerH = some h0 := h1 h0 hlen0 hact0
  have noact : ∀ h, h < (fireTimerT w h0).timers.length →
      ((fireTimerT w h0).timers.getD h ⟨0, false⟩).active = true → False := by
    intro h hh ha
    rcases fireTimerT_timers w h0 with heq | heq
    · rw [heq] at hh ha
      obtain ⟨hact, hne⟩ := clearT_active _ _ _ hh ha
      rw [clearT_length] at hh
      exact hne ((h1 h hh hact).symm.trans hTH).symm
    · rw [heq] at hh ha
      obtain ⟨hact1, _⟩ := clearT_active _ _ _ hh ha
      rw [clearT_length] at hh
      have hlen1 : h < (clearT w.timers (some h0)).length := by
        rw [clearT_length]; rw [clearT_length] at hh; exact hh
      obtain ⟨hact2, hne2⟩ := clearT_active _ _ _ hlen1 hact1
      rw [clearT_length] at hh
      exact hne2 ((h1 h (by rw [clearT_length] at hlen1; exact hlen1)
        hact2).symm.trans hTH).symm
  refine ⟨?_, ?_, ?_⟩
  · intro h hh ha
    exact absurd ha (fun ha => noact h hh ha)
  · intro h heq
    rw [fireTimerT_timerH] at heq
    exact Option.noConfusion heq
  · intro hs
    rw [fireTimerT_timerH] at hs
    exact absurd hs (by simp)

theorem invT_runDueT (fuel : Nat) (w : TSigW) (hI : InvT w) :
    InvT (runDueT fuel w) := by
  induction fuel generalizing w with
  | zero => exact hI
  | succ fuel ih =>
    cases hd : dueTimerT w with
    | none =>
      rw [runDueT, hd]
      exact hI
    | some h0 =>
      rw [runDueT, hd]
      obtain ⟨hlen, hact⟩ := dueTimerT_some w h0 hd
      exact ih _ (invT_fireTimerT w h0 hI hlen hact)

theorem invT_timeoutOp (w : TSigW) (ms : Nat) (hI : InvT w) :
    InvT (timeoutOp w ms) := by
  obtain ⟨h1, h2, h3⟩ := hI
  have hn : (clearT w.timers w.timerH).length = w.timers.length :=
    clearT_length _ _
  refine ⟨?_, ?_, ?_⟩
  · intro h hh ha
    show some (clearT w.timers w.timerH).length = some h
    by_cases hlt : h < (clearT w.timers w.timerH).length
    · exfalso
      have hget : ((clearT w.timers w.timerH
          ++ [(⟨w.now + ms, true⟩ : TimerEntry)]).getD h
          ⟨0, false⟩) = (clearT w.timers w.timerH).getD h ⟨0, false⟩ :=
        List.getD_append _ _ _ _ hlt
      have ha2 : ((clearT w.timers w.timerH).getD h ⟨0, false⟩).active
          = true := by
        rw [← hget]
        exact ha
      obtain ⟨hact, hne⟩ := clearT_active _ _ _ hlt ha2
      rw [hn] at hlt
      exact hne (h1 h hlt hact)
    · have hlen2 : h < (clearT w.timers w.timerH).length + 1 := by
        have hh2 : h < (clearT w.timers w.timerH
            ++ [(⟨w.now + ms, true⟩ : TimerEntry)]).length := hh
        simpa using hh2
      have hhl : h = (clearT w.timers w.timerH).length := by omega
      rw [hhl]
  · intro h heq
    have hhl : (clearT w.timers w.timerH).length = h := by injection heq
    rw [← hhl]
    show (clearT w.timers w.timerH).length
      < (clearT w.timers w.timerH ++ [(⟨w.now + ms, true⟩ : TimerEntry)]).length
    simp
  · intro _
    show 1 ≤ w.clearers + 1
    omega

theorem invT_abortSigT (w : TSigW) (r : Reason) (hI : InvT w) :
    InvT (abortSigT w r) := by
  obtain ⟨h1, h2, h3⟩ := hI
  unfold abortSigT
  split
  · exact ⟨h1, h2, h3⟩
  · dsimp only
    split
    · exact ⟨h1, h2, h3⟩
    · refine ⟨?_, ?_, ?_⟩
      · intro h hh ha
        exfalso
        obtain ⟨hact, hne⟩ := clearT_active _ _ _ hh ha
        rw [clearT_length] at hh
        exact hne (h1 h hh hact)
      · intro h heq
        exact Option.noConfusion heq
      · intro hs
        exact absurd hs (by simp)

theorem invT_elapseTo (w : TSigW) (t : Nat) (hI : InvT w) :
    InvT (elapseTo w t) := by
  obtain ⟨h1, h2, h3⟩ := hI
  exact invT_runDueT _ _ ⟨h1, h2, h3⟩

theorem invT_initTSig : InvT initTSig := by
  refine ⟨?_, ?_, ?_⟩
  · intro h hh _
    exact absurd hh (by simp [initTSig])
  · intro h heq
    exact Option.noConfusion heq
  · intro hs
    exact absurd hs (by simp [initTSig])

theorem invT_applyTOps (ops : List TOp) : InvT (applyTOps initTSig ops) := by
  have gen : ∀ (w : TSigW), InvT w → InvT (applyTOps w ops) := by
    induction ops with
    | nil => exact fun w hI => hI
    | cons op rest ih =>
      intro w hI
      refine ih _ ?_
      cases op with
      | timeoutO ms => exact invT_timeoutOp w ms hI
      | abortO r => exact invT_abortSigT w r hI
      | elapseO t => exact invT_elapseTo w t hI
  exact gen initTSig invT_initTSig

theorem runDueT_none (fuel : Nat) (w : TSigW) (hd : dueTimerT w = none) :
    runDueT fuel w = w := by
  cases fuel with
  | zero => rfl
  | succ fuel => rw [runDueT, hd]

theorem runDueT_step (fuel : Nat) (w : TSigW) (h0 : Nat)
    (hd : dueTimerT w = some h0) :
    runDueT (fuel + 1) w = runDueT fuel (fireTimerT w h0) := by
  rw [runDueT, hd]

theorem elapseTo_eq (w : TSigW) (t : Nat) :
    elapseTo w t
      = runDueT (w.timers.length + 1) { w with now := max w.now t } := rfl

/-- C7: (1) in every state reachable from a pristine signal by any
sequence of `timeout` calls, aborts and elapsed time, at most one host
timer is armed; (2) `timeout(m1)` then `timeout(m2)` cancels the `m1`
timer and arms a fresh `m2` timer, so nothing fires before the `m2`
deadline and at the `m2` deadline the signal aborts (exactly once) with
a fresh `TimeoutError` and `hasTimeout()` turns false; (3) whenever an
unaborted signal aborts by any path, the pending timer is cleared and
`hasTimeout()` is false; (4) the controller is single-fire, so an
aborted signal never fires again; (5) `timeout` returns the same signal
instance. -/
theorem timeout_replace_spec :
    (∀ ops hA hB, hA < (applyTOps initTSig ops).timers.length →
      hB < (applyTOps initTSig ops).timers.length →
      ((applyTOps initTSig ops).timers.getD hA ⟨0, false⟩).active = true →
      ((applyTOps initTSig ops).timers.getD hB ⟨0, false⟩).active = true →
      hA = hB)
    ∧ (∀ m1 m2 t1 t2 : Nat, t1 < m2 → m2 ≤ t2 →
        ((timeoutOp (timeoutOp initTSig m1) m2).timers
            = [⟨m1, false⟩, ⟨m2, true⟩]
          ∧ hasTimeoutM (timeoutOp (timeoutOp initTSig m1) m2) = true
          ∧ (elapseTo (timeoutOp (timeoutOp initTSig m1) m2) t1).aborted
              = false
          ∧ (elapseTo (elapseTo (timeoutOp (timeoutOp initTSig m1) m2) t1)
              t2).aborted = true
          ∧ (elapseTo (elapseTo (timeoutOp (timeoutOp initTSig m1) m2) t1)
              t2).reason = some (.timeoutError 0)
          ∧ hasTimeoutM (elapseTo (elapseTo (timeoutOp (timeoutOp initTSig m1)
              m2) t1) t2) = false))
    ∧ (∀ (w : TSigW) (r : Reason), InvT w → w.aborted = false →
        ((abortSigT w r).timerH = none
          ∧ hasTimeoutM (abortSigT w r) = false
          ∧ ∀ h, h < (abortSigT w r).timers.length →
              ((abortSigT w r).timers.getD h ⟨0, false⟩).active = false))
    ∧ (∀ (w : TSigW) (r : Reason), w.aborted = true → abortSigT w r = w)
    ∧ (∀ (w : TSigW) (ms : Nat), (timeoutCall w ms).2 = w.sid
        ∧ (timeoutCall w ms).1.sid = w.sid) := by
  refine ⟨?_, ?_, ?_, ?_, fun w ms => ⟨rfl, rfl⟩⟩
  · intro ops hA hB hl1 hl2 ha1 ha2
    have hI := invT_applyTOps ops
    have e1 := hI.1 hA hl1 ha1
    have e2 := hI.1 hB hl2 ha2
    rw [e1] at e2
    exact Option.some.inj e2
  · intro m1 m2 t1 t2 ht1 ht2
    have hw2 : timeoutOp (timeoutOp initTSig m1) m2
        = ⟨0, [⟨m1, false⟩, ⟨m2, true⟩], some 1, some m2, false, none, 2, 0,
            0⟩ := by
      simp [timeoutOp, initTSig, clearT]
    have hdue1 : dueTimerT ⟨0, [⟨m1, false⟩, ⟨m2, true⟩], some 1, some m2,
        false, none, 2, t1, 0⟩ = none := by
      unfold dueTimerT
      simp [List.range_succ, Nat.not_le.mpr ht1]
    have he1 : elapseTo ⟨0, [⟨m1, false⟩, ⟨m2, true⟩], some 1, some m2, false,
        none, 2, 0, 0⟩ t1
        = ⟨0, [⟨m1, false⟩, ⟨m2, true⟩], some 1, some m2, false, none, 2, t1,
            0⟩ := by
      rw [elapseTo_eq]
      dsimp only
      rw [Nat.zero_max]
      exact runDueT_none _ _ hdue1
    have ht12 : t1 ≤ t2 := le_of_lt (lt_of_lt_of_le ht1 ht2)
    have hfire : fireTimerT ⟨0, [⟨m1, false⟩, ⟨m2, true⟩], some 1, some m2,
        false, none, 2, t2, 0⟩ 1
        = ⟨0, [⟨m1, false⟩, ⟨m2, false⟩], none, none, true,
            some (.timeoutError 0), 0, t2, 1⟩ := by
      unfold fireTimerT abortSigT clearT
      simp
    have hdue2 : dueTimerT ⟨0, [⟨m1, false⟩, ⟨m2, true⟩], some 1, some m2,
        false, none, 2, t2, 0⟩ = some 1 := by
      unfold dueTimerT
      simp [List.range_succ, ht2]
    have hdue3 : dueTimerT ⟨0, [⟨m1, false⟩, ⟨m2, false⟩], none, none, true,
        some (.timeoutError 0), 0, t2, 1⟩ = none := by
      unfold dueTimerT
      simp [List.range_succ]
    have he2 : elapseTo ⟨0, [⟨m1, false⟩, ⟨m2, true⟩], some 1, some m2, false,
        none, 2, t1, 0⟩ t2
        = ⟨0, [⟨m1, false⟩, ⟨m2, false⟩], none, none, true,
            some (.timeoutError 0), 0, t2, 1⟩ := by
      rw [elapseTo_eq]
      dsimp only
      rw [Nat.max_eq_right ht12]
      rw [runDueT_step _ _ 1 hdue2, hfire]
      exact runDueT_none _ _ hdue3
    refine ⟨by rw [hw2], by rw [hw2]; rfl, ?_, ?_, ?_, ?_⟩
    · rw [hw2, he1]
    · rw [hw2, he1, he2]
    · rw [hw2, he1, he2]
    · rw [hw2, he1, he2]
      rfl
  · intro w r hI hab
    obtain ⟨h1, h2, h3⟩ := hI
    unfold abortSigT
    rw [if_neg (by rw [hab]; exact Bool.false_ne_true)]
    dsimp only
    by_cases hcl : w.clearers = 0
    · rw [if_pos hcl]
      have hTH : w.timerH = none := by
        cases hTH : w.timerH with
        | none => rfl
        | some h0 =>
          exfalso
          have hge := h3 (by rw [hTH]; rfl)
          omega
      refine ⟨hTH, ?_, ?_⟩
      · show w.timerH.isSome = false
        rw [hTH]
        rfl
      · intro h hh
        cases hb : (w.timers.getD h ⟨0, false⟩).active with
        | false => rfl
        | true =>
          exfalso
          have hsome := h1 h hh hb
          rw [hTH] at hsome
          exact Option.noConfusion hsome
    · rw [if_neg hcl]
      refine ⟨rfl, rfl, ?_⟩
      intro h hh
      cases hb : ((clearT w.timers w.timerH).getD h ⟨0, false⟩).active with
      | false => rfl
      | true =>
        exfalso
        obtain ⟨hact, hne⟩ := clearT_active _ _ _ hh hb
        rw [clearT_length] at hh
        exact hne (h1 h hh hact)
  · intro w r hab
    unfold abortSigT
    rw [if_pos hab]

/-- Witness for C7: the replace scenario at 50ms/200ms observed at
100ms and 250ms, the invariant after two `timeout` calls, an abort of
an armed unaborted signal, the single-fire no-op, and the returned
identity. -/
theorem timeout_replace_spec_witness :
    (1 : Nat) = 1
    ∧ ((timeoutOp (timeoutOp initTSig 50) 200).timers
        = [⟨50, false⟩, ⟨200, true⟩]
      ∧ hasTimeoutM (timeoutOp (timeoutOp initTSig 50) 200) = true
      ∧ (elapseTo (timeoutOp (timeoutOp initTSig 50) 200) 100).aborted = false
      ∧ (elapseTo (elapseTo (timeoutOp (timeoutOp initTSig 50) 200) 100)
          250).aborted = true
      ∧ (elapseTo (elapseTo (timeoutOp (timeoutOp initTSig 50) 200) 100)
          250).reason = some (.timeoutError 0)
      ∧ hasTimeoutM (elapseTo (elapseTo (timeoutOp (timeoutOp initTSig 50)
          200) 100) 250) = false)
    ∧ ((abortSigT ⟨0, [⟨5, true⟩], some 0, some 5, false, none, 1, 0, 0⟩
          (.custom 1)).timerH = none
      ∧ hasTimeoutM (abortSigT ⟨0, [⟨5, true⟩], some 0, some 5, false, none,
          1, 0, 0⟩ (.custom 1)) = false
      ∧ ∀ h, h < (abortSigT ⟨0, [⟨5, true⟩], some 0, some 5, false, none, 1,
          0, 0⟩ (.custom 1)).timers.length →
          ((abortSigT ⟨0, [⟨5, true⟩], some 0, some 5, false, none, 1, 0,
            0⟩ (.custom 1)).timers.getD h ⟨0, false⟩).active = false)
    ∧ abortSigT ⟨0, [⟨5, false⟩], none, none, true, some (.custom 2), 0, 9,
        3⟩ (.custom 7)
      = ⟨0, [⟨5, false⟩], none, none, true, some (.custom 2), 0, 9, 3⟩
    ∧ (timeoutCall initTSig 33).2 = 0 :=
  ⟨timeout_replace_spec.1 [.timeoutO 5, .timeoutO 7] 1 1 (by decide)
      (by decide) (by decide) (by decide),
   timeout_replace_spec.2.1 50 200 100 250 (by decide) (by decide),
   timeout_replace_spec.2.2.1 ⟨0, [⟨5, true⟩], some 0, some 5, false, none,
      1, 0, 0⟩ (.custom 1)
      ⟨by decide, fun h heq => by cases heq; decide, fun _ => by decide⟩
      (by decide),
   timeout_replace_spec.2.2.2.1 ⟨0, [⟨5, false⟩], none, none, true,
      some (.custom 2), 0, 9, 3⟩ (.custom 7) (by decide),
   (timeout_replace_spec.2.2.2.2 initTSig 33).1⟩

end AbortLib
